import Mathlib

/-!
# Memory Device (SMBIOS type 17) decoder of `hwinfo/memory.go`

A shallow embedding of `getMemoryRaw` and `GetMemory` together with the label
tables and the `BitField` helper they use.

* A byte is a `Fin 256`; a buffer `[]byte` is a `List Byte` whose capacity is
  taken to be its length.
* Go's unsigned machine integers are natural numbers, reduced modulo `2 ^ w`
  wherever the source converts, subtracts or multiplies.
* A run-time panic (index out of range) and a returned non-nil `error` are the
  two ways a call can stop early; both are values of `Abort`, carried by the
  `Except` monad.  Every index and slice expression of the source is a fallible
  read (`index`, `slice`), also where a length gate makes it safe.
* `GetMemory` only returns an `error`; the raw and the decoded record it builds
  are handed to `spew.Dump` just before `return nil`.  The embedding returns
  that pair as the result of a completed call.
* `encoding/binary`, `fmt` and `spew` are libraries outside the repository:
  `LittleEndian.UintN` is embedded from its definition (bounds hint, shifts and
  ors), `fmt.Errorf` by the message it formats, `spew.Dump` by its arguments.
-/

namespace hwinfo

/-! ## Run-time model -/

/-- One octet of the formatted section. -/
abbrev Byte := Fin 256

/-- The two ways a Go call stops before its last statement. -/
inductive Abort where
  /-- A run-time panic: index or slice bounds out of range. -/
  | panic : Abort
  /-- A non-nil `error` value handed back to the caller, with its message. -/
  | error (msg : String) : Abort
  deriving DecidableEq, Repr

/-- Go index expression `xs[i]`: panics when `i` is not below `len(xs)`. -/
def index {α : Type} (xs : List α) (i : Nat) : Except Abort α :=
  match xs[i]? with
  | some x => Except.ok x
  | none => Except.error Abort.panic

/-- Go slice expression `fb[lo:hi]` on a slice whose capacity equals its length. -/
def slice (fb : List Byte) (lo hi : Nat) : Except Abort (List Byte) :=
  if lo ≤ hi ∧ hi ≤ fb.length then Except.ok ((fb.drop lo).take (hi - lo))
  else Except.error Abort.panic

/-- Go `a - b` on two `byte` operands (wraps modulo 256). -/
def subByte (a b : Nat) : Nat := (a + 256 - b % 256) % 256

/-! ## `encoding/binary`: `LittleEndian.Uint16`, `Uint32`, `Uint64` -/

/-- Go `binary.LittleEndian.Uint16(b)`. -/
def Uint16 (b : List Byte) : Except Abort Nat := do
  let _ ← index b 1
  let b0 ← index b 0
  let b1 ← index b 1
  pure (b0.val ||| (b1.val <<< 8))

/-- Go `binary.LittleEndian.Uint32(b)`. -/
def Uint32 (b : List Byte) : Except Abort Nat := do
  let _ ← index b 3
  let b0 ← index b 0
  let b1 ← index b 1
  let b2 ← index b 2
  let b3 ← index b 3
  pure (b0.val ||| (b1.val <<< 8) ||| (b2.val <<< 16) ||| (b3.val <<< 24))

/-- Go `binary.LittleEndian.Uint64(b)`. -/
def Uint64 (b : List Byte) : Except Abort Nat := do
  let _ ← index b 7
  let b0 ← index b 0
  let b1 ← index b 1
  let b2 ← index b 2
  let b3 ← index b 3
  let b4 ← index b 4
  let b5 ← index b 5
  let b6 ← index b 6
  let b7 ← index b 7
  pure (b0.val ||| (b1.val <<< 8) ||| (b2.val <<< 16) ||| (b3.val <<< 24) |||
    (b4.val <<< 32) ||| (b5.val <<< 40) ||| (b6.val <<< 48) ||| (b7.val <<< 56))

/-! ## Constants -/

def sizeAsPer2_1 : Nat := 17
def sizeAsPer2_3 : Nat := 23
def sizeAsPer2_6 : Nat := 24
def sizeAsPer2_7 : Nat := 30
def sizeAsPer2_8 : Nat := 36
def sizeAsPer3_2 : Nat := 80
def sizeAsPer3_3 : Nat := 88

/-! ## Label tables -/

/-- The array literal indexed by `MemoryFormFactor.String`. -/
def MemoryFormFactor.labels : List String :=
  [ "Undefined", "Other", "Unknown", "SIMM", "SIP", "Chip", "DIP", "ZIP",
    "Proprietary Card", "DIMM", "TSOP", "RowOfChips", "RIMM0", "SODIMM", "SRIMM",
    "FBDIMM", "Die" ]

/-- Source `func (mff MemoryFormFactor) String() string`; `MemoryFormFactor` is an `int`. -/
def MemoryFormFactor.String (mff : Int) : Except Abort String :=
  if 0 ≤ mff then index MemoryFormFactor.labels mff.toNat else Except.error Abort.panic

/-- The array literal indexed by `MemoryType.String`. -/
def MemoryType.labels : List String :=
  [ "Undefined", "Other", "Unknown", "DRAM", "EDRAM", "VRAM", "SRAM", "RAM", "ROM",
    "FLASH", "EEPROM", "FEPROM", "EPROM", "CDRAM", "3DRAM", "SDRAM", "SGRAM", "RDRAM",
    "DDR", "DDR2", "DDR2 FB-DIMM", "Reserved", "Reserved", "Reserved", "DDR3", "FBD2",
    "DDR4", "LPDDR", "LPDDR2", "LPDDR3", "LPDDR4", "Logical non-volatile device",
    "HBM (High Bandwidth Memory)", "HBM2 (High Bandwidth Memory Generation 2)",
    "DDR5", "LPDDR5" ]

/-- Source `func (mt MemoryType) String() string`; `MemoryType` is an `int`. -/
def MemoryType.String (mt : Int) : Except Abort String :=
  if 0 ≤ mt then index MemoryType.labels mt.toNat else Except.error Abort.panic

/-- The array literal indexed by `MemoryTypeDetail.String`. -/
def MemoryTypeDetail.labels : List String :=
  [ "Reserved", "Other", "Unknown", "Fast-paged", "Static column", "Pseudo-static",
    "RAMBUS", "Synchronous", "CMOS", "EDO", "Window DRAM", "Cache DRAM", "Non-volatile",
    "Registered (Buffered)", "Unbuffered (Unregistered)", "LRDIMM" ]

/-- Source `func (mtd MemoryTypeDetail) String() string`; `MemoryTypeDetail` is an `int`. -/
def MemoryTypeDetail.String (mtd : Int) : Except Abort String :=
  if 0 ≤ mtd then index MemoryTypeDetail.labels mtd.toNat else Except.error Abort.panic

/-! ## `BitField` -/

/-- Source `type BitField []byte`. -/
abbrev BitField := List Byte

/-- Conversion `byte(n)` for a natural number held in any unsigned type. -/
def toByte (n : Nat) : Byte := ⟨n % 256, Nat.mod_lt n (by decide)⟩

/-- Source `func BitFieldFromUint16(n uint16) BitField`: two bytes, low byte first. -/
def BitFieldFromUint16 (n : Nat) : BitField :=
  let b : List Byte := List.replicate 2 0
  let b := b.set 0 (toByte n)
  let b := b.set 1 (toByte (n >>> 8))
  b

/-- Source `func (b BitField) Test(i uint32) bool`. -/
def BitField.Test (b : BitField) (i : Nat) : Except Abort Bool := do
  let idx := i / 8
  let offset := i % 8
  let byte ← index b idx
  pure ((byte.val &&& ((1 <<< offset) % 256)) != 0)

/-! ## Records -/

/-- Source `type MemoryRaw struct`. -/
structure MemoryRaw where
  MemArrayHandle : Nat := 0
  MemErrorInfoHandle : Nat := 0
  TotalWidth : Nat := 0
  DataWidth : Nat := 0
  Size : Nat := 0
  FormFactor : Nat := 0
  DeviceSet : Nat := 0
  DeviceLocator : Nat := 0
  BankLocator : Nat := 0
  MemType : Nat := 0
  TypeDetail : Nat := 0
  Speed : Nat := 0
  Manufacturer : Nat := 0
  SerialNumber : Nat := 0
  AssetTag : Nat := 0
  PartNumber : Nat := 0
  Attribute : Nat := 0
  ExtendedSize : Nat := 0
  ConfiguredMemClockSpeed : Nat := 0
  MinVoltage : Nat := 0
  MaxVoltage : Nat := 0
  ConfiguredVoltage : Nat := 0
  MemoryTechnology : Nat := 0
  MemoryOperatingModeCapability : Nat := 0
  FirmwareVersion : Nat := 0
  ModuleManufacturerID : Nat := 0
  ModuleProductID : Nat := 0
  MemorySubsystemControllerManufacturerID : Nat := 0
  MemorySubsystemControllerProductID : Nat := 0
  NonVolatileSize : Nat := 0
  VolatileSize : Nat := 0
  CacheSize : Nat := 0
  LogicalSize : Nat := 0
  ExtendedSpeed : Nat := 0
  ExtendedConfiguredMemorySpeed : Nat := 0
  deriving DecidableEq, Repr

/-- Source `type Memory struct`. -/
structure Memory where
  TotalWidth : Nat := 0
  DataWidth : Nat := 0
  SizeKB : Nat := 0
  SizeMB : Nat := 0
  FormFactor : String := ""
  DeviceSet : Nat := 0
  DeviceLocator : String := ""
  BankLocator : String := ""
  MemType : String := ""
  TypeDetail : List String := []
  Speed : Nat := 0
  Manufacturer : String := ""
  SerialNumber : String := ""
  AssetTag : String := ""
  deriving DecidableEq, Repr

/-! ## `getMemoryRaw` -/

/-- Source `func getMemoryRaw(fb []byte, ss []string) *MemoryRaw`. -/
def getMemoryRaw (fb : List Byte) (_ss : List String) : Except Abort MemoryRaw := do
  let fbLen := fb.length
  let mut raw : MemoryRaw := {}
  if fbLen ≥ sizeAsPer2_1 then
    raw := { raw with MemArrayHandle := ← Uint16 (← slice fb 0 2) }
    raw := { raw with MemErrorInfoHandle := ← Uint16 (← slice fb 2 4) }
    raw := { raw with TotalWidth := ← Uint16 (← slice fb 4 6) }
    raw := { raw with DataWidth := ← Uint16 (← slice fb 6 8) }
    raw := { raw with Size := ← Uint16 (← slice fb 8 10) }
    raw := { raw with FormFactor := (← index fb 10).val }
    raw := { raw with DeviceSet := (← index fb 11).val }
    raw := { raw with DeviceLocator := (← index fb 12).val }
    raw := { raw with BankLocator := (← index fb 13).val }
    raw := { raw with MemType := (← index fb 14).val }
    raw := { raw with TypeDetail := ← Uint16 (← slice fb 15 17) }
  if fbLen ≥ sizeAsPer2_3 then
    raw := { raw with Speed := ← Uint16 (← slice fb 17 19) }
    raw := { raw with Manufacturer := (← index fb 19).val }
    raw := { raw with SerialNumber := (← index fb 20).val }
    raw := { raw with AssetTag := (← index fb 21).val }
    raw := { raw with PartNumber := (← index fb 22).val }
  if fbLen ≥ sizeAsPer2_6 then
    raw := { raw with Attribute := (← index fb 23).val }
  if fbLen ≥ sizeAsPer2_7 then
    raw := { raw with ExtendedSize := ← Uint32 (← slice fb 24 28) }
    raw := { raw with ConfiguredMemClockSpeed := ← Uint16 (← slice fb 28 30) }
  if fbLen ≥ sizeAsPer2_8 then
    raw := { raw with MinVoltage := ← Uint16 (← slice fb 30 32) }
    raw := { raw with MaxVoltage := ← Uint16 (← slice fb 32 34) }
    raw := { raw with ConfiguredVoltage := ← Uint16 (← slice fb 34 36) }
  if fbLen ≥ sizeAsPer3_2 then
    raw := { raw with MemoryTechnology := (← index fb 36).val }
    raw := { raw with MemoryOperatingModeCapability := ← Uint16 (← slice fb 37 39) }
    raw := { raw with FirmwareVersion := (← index fb 39).val }
    raw := { raw with ModuleManufacturerID := ← Uint16 (← slice fb 40 42) }
    raw := { raw with ModuleProductID := ← Uint16 (← slice fb 42 44) }
    raw := { raw with MemorySubsystemControllerManufacturerID := ← Uint16 (← slice fb 44 46) }
    raw := { raw with MemorySubsystemControllerProductID := ← Uint16 (← slice fb 46 48) }
    raw := { raw with NonVolatileSize := ← Uint64 (← slice fb 48 56) }
    raw := { raw with VolatileSize := ← Uint64 (← slice fb 56 64) }
    raw := { raw with CacheSize := ← Uint64 (← slice fb 64 72) }
    raw := { raw with LogicalSize := ← Uint64 (← slice fb 72 80) }
  if fbLen ≥ sizeAsPer3_3 then
    raw := { raw with ExtendedSpeed := ← Uint32 (← slice fb 80 84) }
    raw := { raw with ExtendedConfiguredMemorySpeed := ← Uint32 (← slice fb 84 88) }
  return raw

/-! ## `GetMemory` -/

/-- Source `func GetMemory(fb []byte, ss []string) error`.  The record under
construction is passed along explicitly: a Go statement `if c { mem.F = v }` is the
assignment `mem := if c then { mem with F := v } else mem`.  A completed call yields the
two values passed to `spew.Dump` right before `return nil`. -/
def GetMemory (fb : List Byte) (ss : List String) : Except Abort (MemoryRaw × Memory) := do
  let mut mem : Memory := {}
  -- guards
  if fb.length < sizeAsPer2_1 then
    throw (Abort.error ("formated byte array is too short, len: " ++ toString fb.length))
  let raw ← getMemoryRaw fb ss
  let arrSize := ss.length % 256
  -- Copy data width
  mem := if raw.TotalWidth > 0 then { mem with TotalWidth := raw.TotalWidth } else mem
  mem := if raw.DataWidth > 0 then { mem with DataWidth := raw.DataWidth } else mem
  -- memory size
  let mut memSize := raw.Size % 2 ^ 64
  memSize :=
    if raw.Size = 0x7FFF ∧ fb.length ≥ sizeAsPer2_7 then raw.ExtendedSize % 2 ^ 64 else memSize
  let b9 ← index fb 9
  mem :=
    if b9.val &&& 0x80 = 0 then -- MB
      let m := { mem with SizeKB := (memSize * 1024) % 2 ^ 64 }
      { m with SizeMB := memSize }
    else -- kB
      let m := { mem with SizeKB := memSize }
      { m with SizeMB := m.SizeKB / 1024 }
  -- `if mem.SizeKB != 0 { }` has an empty body in the source
  mem := { mem with FormFactor := ← MemoryFormFactor.String (Int.ofNat raw.FormFactor) }
  mem := { mem with DeviceSet := raw.DeviceSet }
  mem ← (
    if raw.DeviceLocator > 0 then do
      pure { mem with DeviceLocator := ← index ss (subByte raw.DeviceLocator 1) }
    else pure mem)
  mem ← (
    if raw.BankLocator > 0 then do
      pure { mem with BankLocator := ← index ss (subByte raw.BankLocator 1) }
    else pure mem)
  mem := { mem with MemType := ← MemoryType.String (Int.ofNat raw.MemType) }
  -- TypeDetail slice
  let detailBitField := BitFieldFromUint16 raw.TypeDetail
  for i in List.range 16 do
    if ← detailBitField.Test i then
      mem := { mem with
        TypeDetail := mem.TypeDetail ++ [← MemoryTypeDetail.String (Int.ofNat i)] }
  -- Speed MT/s
  mem :=
    if (raw.Speed = 0x7FFF ∨ raw.Speed = 0xFFFF) ∧ fb.length ≥ sizeAsPer3_3 then
      { mem with Speed := raw.ExtendedSpeed }
    else
      { mem with Speed := raw.Speed % 2 ^ 32 }
  mem ← (
    if raw.Manufacturer > 0 ∧ raw.Manufacturer ≤ arrSize then do
      let index1 := subByte raw.Manufacturer 1
      if index1 ≥ 0 then
        pure { mem with Manufacturer := ← index ss index1 }
      else pure mem
    else pure mem)
  mem ← (
    if raw.SerialNumber > 0 ∧ raw.SerialNumber ≤ arrSize then do
      let index1 := subByte raw.SerialNumber 1
      if index1 ≥ 0 then do
        let memSerNo ← index ss index1
        pure { mem with SerialNumber := memSerNo }
      else pure mem
    else pure mem)
  return (raw, mem)

/-! ## Reading the buffer: total views used in statements -/

/-- Value of the byte at offset `i`, and `0` past the end of the buffer. -/
def rd (fb : List Byte) (i : Nat) : Nat := (fb.getD i 0).val

/-- Little-endian value of the two bytes at offsets `i`, `i + 1`. -/
def le16 (fb : List Byte) (i : Nat) : Nat := rd fb i + 256 * rd fb (i + 1)

/-- Little-endian value of the four bytes at offsets `i .. i + 3`. -/
def le32 (fb : List Byte) (i : Nat) : Nat := le16 fb i + 65536 * le16 fb (i + 2)

/-- Little-endian value of the eight bytes at offsets `i .. i + 7`. -/
def le64 (fb : List Byte) (i : Nat) : Nat := le32 fb i + 4294967296 * le32 fb (i + 4)

/-- Little-endian unsigned integer denoted by a byte sequence, first byte least
significant. -/
def leValue : List Byte → Nat
  | [] => 0
  | b :: bs => b.val + 256 * leValue bs

/-- The bytes of the half-open range `[lo, hi)` of a buffer. -/
def bytesOf (fb : List Byte) (lo hi : Nat) : List Byte := (fb.drop lo).take (hi - lo)

/-- Value of a raw field gated at tier `t`: `v` once the buffer has `t` bytes, else
the zero value. -/
def gate (fb : List Byte) (t v : Nat) : Nat := if t ≤ fb.length then v else 0

/-- The raw record as a total function of the buffer: every field is the little-endian
value at its offset, gated by the length threshold of its tier. -/
def rawView (fb : List Byte) : MemoryRaw :=
  { MemArrayHandle := gate fb 17 (le16 fb 0)
    MemErrorInfoHandle := gate fb 17 (le16 fb 2)
    TotalWidth := gate fb 17 (le16 fb 4)
    DataWidth := gate fb 17 (le16 fb 6)
    Size := gate fb 17 (le16 fb 8)
    FormFactor := gate fb 17 (rd fb 10)
    DeviceSet := gate fb 17 (rd fb 11)
    DeviceLocator := gate fb 17 (rd fb 12)
    BankLocator := gate fb 17 (rd fb 13)
    MemType := gate fb 17 (rd fb 14)
    TypeDetail := gate fb 17 (le16 fb 15)
    Speed := gate fb 23 (le16 fb 17)
    Manufacturer := gate fb 23 (rd fb 19)
    SerialNumber := gate fb 23 (rd fb 20)
    AssetTag := gate fb 23 (rd fb 21)
    PartNumber := gate fb 23 (rd fb 22)
    Attribute := gate fb 24 (rd fb 23)
    ExtendedSize := gate fb 30 (le32 fb 24)
    ConfiguredMemClockSpeed := gate fb 30 (le16 fb 28)
    MinVoltage := gate fb 36 (le16 fb 30)
    MaxVoltage := gate fb 36 (le16 fb 32)
    ConfiguredVoltage := gate fb 36 (le16 fb 34)
    MemoryTechnology := gate fb 80 (rd fb 36)
    MemoryOperatingModeCapability := gate fb 80 (le16 fb 37)
    FirmwareVersion := gate fb 80 (rd fb 39)
    ModuleManufacturerID := gate fb 80 (le16 fb 40)
    ModuleProductID := gate fb 80 (le16 fb 42)
    MemorySubsystemControllerManufacturerID := gate fb 80 (le16 fb 44)
    MemorySubsystemControllerProductID := gate fb 80 (le16 fb 46)
    NonVolatileSize := gate fb 80 (le64 fb 48)
    VolatileSize := gate fb 80 (le64 fb 56)
    CacheSize := gate fb 80 (le64 fb 64)
    LogicalSize := gate fb 80 (le64 fb 72)
    ExtendedSpeed := gate fb 88 (le32 fb 80)
    ExtendedConfiguredMemorySpeed := gate fb 88 (le32 fb 84) }

/-! ## Closed forms of the interpreter, used in statements and proofs -/

/-- Label of type-detail bit `i` (the empty string outside the table). -/
def detailLabel (i : Nat) : String := MemoryTypeDetail.labels.getD i ""

/-- Labels of the bits set in `t`, in ascending bit position `0 .. 15`. -/
def detailLabels (t : Nat) : List String :=
  ((List.range 16).filter (fun i => t.testBit i)).map detailLabel

/-- Number of set bits among positions `0 .. 15` of `t`. -/
def popCount16 (t : Nat) : Nat := ((List.range 16).map (fun i => t / 2 ^ i % 2)).sum

/-- The unguarded locator lookup of `GetMemory`: `ss[i-1]` when `i > 0`. -/
def locate (ss : List String) (i : Nat) : Except Abort String :=
  if i > 0 then index ss (subByte i 1) else Except.ok ""

/-- The string a 1-based index denotes: entry `i - 1` of the table when `0 < i` and the
entry exists, else the empty string. -/
def locString (ss : List String) (i : Nat) : String :=
  if i > 0 then ss.getD (i - 1) "" else ""

/-- Label of a form-factor value (the empty string outside the table). -/
def formFactorLabel (n : Nat) : String := MemoryFormFactor.labels.getD n ""

/-- Label of a memory-type value (the empty string outside the table). -/
def memTypeLabel (n : Nat) : String := MemoryType.labels.getD n ""

/-- Resolved size value: the extended size under the sentinel rule, else the 16-bit
size. -/
def sizeValue (fb : List Byte) : Nat :=
  if (rawView fb).Size = 0x7FFF ∧ 30 ≤ fb.length then (rawView fb).ExtendedSize
  else (rawView fb).Size

/-- The decoded record of a completed call, given the four looked-up strings. -/
def memView (fb : List Byte) (ss : List String) (ff dl bl mt : String) : Memory :=
  { TotalWidth := (rawView fb).TotalWidth
    DataWidth := (rawView fb).DataWidth
    SizeKB := if rd fb 9 &&& 0x80 = 0 then sizeValue fb * 1024 else sizeValue fb
    SizeMB := if rd fb 9 &&& 0x80 = 0 then sizeValue fb else sizeValue fb / 1024
    FormFactor := ff
    DeviceSet := (rawView fb).DeviceSet
    DeviceLocator := dl
    BankLocator := bl
    MemType := mt
    TypeDetail := detailLabels (rawView fb).TypeDetail
    Speed :=
      if ((rawView fb).Speed = 0x7FFF ∨ (rawView fb).Speed = 0xFFFF) ∧ 88 ≤ fb.length then
        (rawView fb).ExtendedSpeed
      else (rawView fb).Speed
    Manufacturer :=
      if (rawView fb).Manufacturer > 0 ∧ (rawView fb).Manufacturer ≤ ss.length % 256 then
        ss.getD ((rawView fb).Manufacturer - 1) ""
      else ""
    SerialNumber :=
      if (rawView fb).SerialNumber > 0 ∧ (rawView fb).SerialNumber ≤ ss.length % 256 then
        ss.getD ((rawView fb).SerialNumber - 1) ""
      else ""
    AssetTag := "" }

/-- The four conditions under which no table or string lookup of `GetMemory` is out of
range. -/
def lookupsInRange (fb : List Byte) (ss : List String) : Prop :=
  rd fb 10 < 17 ∧ rd fb 12 ≤ ss.length ∧ rd fb 13 ≤ ss.length ∧ rd fb 14 < 36

instance (fb : List Byte) (ss : List String) : Decidable (lookupsInRange fb ss) := by
  unfold lookupsInRange; infer_instance

/-- The decoded record of a completed call as a total function of the inputs. -/
def decoded (fb : List Byte) (ss : List String) : Memory :=
  memView fb ss (formFactorLabel (rd fb 10)) (locString ss (rd fb 12))
    (locString ss (rd fb 13)) (memTypeLabel (rd fb 14))

/-! ## The offset table of the specification -/

/-- The raw fields, one per row entry of the offset table. -/
inductive RawField where
  | MemArrayHandle | MemErrorInfoHandle | TotalWidth | DataWidth | Size | FormFactor
  | DeviceSet | DeviceLocator | BankLocator | MemType | TypeDetail
  | Speed | Manufacturer | SerialNumber | AssetTag | PartNumber
  | Attribute
  | ExtendedSize | ConfiguredMemClockSpeed
  | MinVoltage | MaxVoltage | ConfiguredVoltage
  | MemoryTechnology | MemoryOperatingModeCapability | FirmwareVersion
  | ModuleManufacturerID | ModuleProductID | MemorySubsystemControllerManufacturerID
  | MemorySubsystemControllerProductID | NonVolatileSize | VolatileSize | CacheSize
  | LogicalSize
  | ExtendedSpeed | ExtendedConfiguredMemorySpeed
  deriving DecidableEq, Repr

/-- Tier threshold (minimum buffer length) of a raw field, as the offset table gives it. -/
def RawField.tier : RawField → Nat
  | .MemArrayHandle | .MemErrorInfoHandle | .TotalWidth | .DataWidth | .Size | .FormFactor
  | .DeviceSet | .DeviceLocator | .BankLocator | .MemType | .TypeDetail => 17
  | .Speed | .Manufacturer | .SerialNumber | .AssetTag | .PartNumber => 23
  | .Attribute => 24
  | .ExtendedSize | .ConfiguredMemClockSpeed => 30
  | .MinVoltage | .MaxVoltage | .ConfiguredVoltage => 36
  | .MemoryTechnology | .MemoryOperatingModeCapability | .FirmwareVersion
  | .ModuleManufacturerID | .ModuleProductID | .MemorySubsystemControllerManufacturerID
  | .MemorySubsystemControllerProductID | .NonVolatileSize | .VolatileSize | .CacheSize
  | .LogicalSize => 80
  | .ExtendedSpeed | .ExtendedConfiguredMemorySpeed => 88

/-- First byte offset of a raw field, as the offset table gives it. -/
def RawField.lo : RawField → Nat
  | .MemArrayHandle => 0 | .MemErrorInfoHandle => 2 | .TotalWidth => 4 | .DataWidth => 6
  | .Size => 8 | .FormFactor => 10 | .DeviceSet => 11 | .DeviceLocator => 12
  | .BankLocator => 13 | .MemType => 14 | .TypeDetail => 15
  | .Speed => 17 | .Manufacturer => 19 | .SerialNumber => 20 | .AssetTag => 21
  | .PartNumber => 22
  | .Attribute => 23
  | .ExtendedSize => 24 | .ConfiguredMemClockSpeed => 28
  | .MinVoltage => 30 | .MaxVoltage => 32 | .ConfiguredVoltage => 34
  | .MemoryTechnology => 36 | .MemoryOperatingModeCapability => 37 | .FirmwareVersion => 39
  | .ModuleManufacturerID => 40 | .ModuleProductID => 42
  | .MemorySubsystemControllerManufacturerID => 44
  | .MemorySubsystemControllerProductID => 46
  | .NonVolatileSize => 48 | .VolatileSize => 56 | .CacheSize => 64 | .LogicalSize => 72
  | .ExtendedSpeed => 80 | .ExtendedConfiguredMemorySpeed => 84

/-- End byte offset (exclusive) of a raw field, as the offset table gives it. -/
def RawField.hi : RawField → Nat
  | .MemArrayHandle => 2 | .MemErrorInfoHandle => 4 | .TotalWidth => 6 | .DataWidth => 8
  | .Size => 10 | .FormFactor => 11 | .DeviceSet => 12 | .DeviceLocator => 13
  | .BankLocator => 14 | .MemType => 15 | .TypeDetail => 17
  | .Speed => 19 | .Manufacturer => 20 | .SerialNumber => 21 | .AssetTag => 22
  | .PartNumber => 23
  | .Attribute => 24
  | .ExtendedSize => 28 | .ConfiguredMemClockSpeed => 30
  | .MinVoltage => 32 | .MaxVoltage => 34 | .ConfiguredVoltage => 36
  | .MemoryTechnology => 37 | .MemoryOperatingModeCapability => 39 | .FirmwareVersion => 40
  | .ModuleManufacturerID => 42 | .ModuleProductID => 44
  | .MemorySubsystemControllerManufacturerID => 46
  | .MemorySubsystemControllerProductID => 48
  | .NonVolatileSize => 56 | .VolatileSize => 64 | .CacheSize => 72 | .LogicalSize => 80
  | .ExtendedSpeed => 84 | .ExtendedConfiguredMemorySpeed => 88

/-- The component of a raw record a field names. -/
def RawField.get : RawField → MemoryRaw → Nat
  | .MemArrayHandle, r => r.MemArrayHandle
  | .MemErrorInfoHandle, r => r.MemErrorInfoHandle
  | .TotalWidth, r => r.TotalWidth
  | .DataWidth, r => r.DataWidth
  | .Size, r => r.Size
  | .FormFactor, r => r.FormFactor
  | .DeviceSet, r => r.DeviceSet
  | .DeviceLocator, r => r.DeviceLocator
  | .BankLocator, r => r.BankLocator
  | .MemType, r => r.MemType
  | .TypeDetail, r => r.TypeDetail
  | .Speed, r => r.Speed
  | .Manufacturer, r => r.Manufacturer
  | .SerialNumber, r => r.SerialNumber
  | .AssetTag, r => r.AssetTag
  | .PartNumber, r => r.PartNumber
  | .Attribute, r => r.Attribute
  | .ExtendedSize, r => r.ExtendedSize
  | .ConfiguredMemClockSpeed, r => r.ConfiguredMemClockSpeed
  | .MinVoltage, r => r.MinVoltage
  | .MaxVoltage, r => r.MaxVoltage
  | .ConfiguredVoltage, r => r.ConfiguredVoltage
  | .MemoryTechnology, r => r.MemoryTechnology
  | .MemoryOperatingModeCapability, r => r.MemoryOperatingModeCapability
  | .FirmwareVersion, r => r.FirmwareVersion
  | .ModuleManufacturerID, r => r.ModuleManufacturerID
  | .ModuleProductID, r => r.ModuleProductID
  | .MemorySubsystemControllerManufacturerID, r => r.MemorySubsystemControllerManufacturerID
  | .MemorySubsystemControllerProductID, r => r.MemorySubsystemControllerProductID
  | .NonVolatileSize, r => r.NonVolatileSize
  | .VolatileSize, r => r.VolatileSize
  | .CacheSize, r => r.CacheSize
  | .LogicalSize, r => r.LogicalSize
  | .ExtendedSpeed, r => r.ExtendedSpeed
  | .ExtendedConfiguredMemorySpeed, r => r.ExtendedConfiguredMemorySpeed

/-! ## Statement vocabulary and example inputs -/

/-- A 24-byte buffer of the end-to-end example. -/
def exampleBuf24 : List Byte :=
  [0x34, 0x12, 0xFE, 0xFF, 64, 0, 64, 0, 0x10, 0, 9, 0, 1, 0, 26, 0x80, 0, 0x60, 0x09,
   0, 0, 0, 0, 2]

/-- A 17-byte buffer whose device-locator index is 1. -/
def locatorBuf : List Byte := [0, 0, 0, 0, 0, 0, 0, 0, 0, 0, 0, 0, 1, 0, 0, 0, 0]

/-- A 23-byte buffer whose manufacturer index is 1 and serial index is 2. -/
def manufacturerBuf : List Byte :=
  [0, 0, 0, 0, 0, 0, 0, 0, 0, 0, 0, 0, 0, 0, 0, 0, 0, 0, 0, 1, 2, 0, 0]

/-- Resolved size value in the words of the specification. -/
def resolvedSize (fb : List Byte) : Nat :=
  if le16 fb 8 = 0x7FFF ∧ 30 ≤ fb.length then le32 fb 24 else le16 fb 8

/-- A 30-byte buffer with the size sentinel 0x7FFF and extended size 0x00010000. -/
def sentinelBuf30 : List Byte :=
  [0, 0, 0, 0, 0, 0, 0, 0, 0xFF, 0x7F, 9, 0, 0, 0, 26, 0, 0, 0, 0, 0, 0, 0, 0, 0,
   0, 0, 1, 0, 0, 0]

/-- A 17-byte buffer whose size field 0x8400 has the kilobyte bit set. -/
def kilobyteBuf : List Byte := [0, 0, 0, 0, 0, 0, 0, 0, 0x00, 0x84, 9, 0, 0, 0, 26, 0, 0]

/-- An 88-byte buffer with speed 0xFFFF and extended speed 100000. -/
def speedBuf88 : List Byte :=
  [0, 0, 0, 0, 0, 0, 0, 0, 0, 0, 9, 0, 0, 0, 26, 0, 0, 0xFF, 0xFF, 0, 0, 0, 0] ++
    List.replicate 57 0 ++ [0xA0, 0x86, 0x01, 0x00, 0, 0, 0, 0]

/-- The raw 16-bit speed field: bytes 17 and 18 once the buffer has 23 bytes, else 0. -/
def speedField (fb : List Byte) : Nat := if 23 ≤ fb.length then le16 fb 17 else 0

/-- The manufacturer index: byte 19 once the buffer has 23 bytes, else 0. -/
def manufacturerIdx (fb : List Byte) : Nat := if 23 ≤ fb.length then rd fb 19 else 0

/-- The serial-number index: byte 20 once the buffer has 23 bytes, else 0. -/
def serialIdx (fb : List Byte) : Nat := if 23 ≤ fb.length then rd fb 20 else 0

/-- A string table of 256 entries, each `"X"`. -/
def table256 : List String := List.replicate 256 "X"

/-- A 17-byte buffer whose memory-type byte is 35. -/
def memType35Buf : List Byte := [0, 0, 0, 0, 0, 0, 0, 0, 0, 0, 0, 0, 0, 0, 35, 0, 0]

/-- A 17-byte buffer whose form-factor byte is 17. -/
def formFactor17Buf : List Byte := [0, 0, 0, 0, 0, 0, 0, 0, 0, 0, 17, 0, 0, 0, 0, 0, 0]

/-- A 17-byte buffer of an empty slot: size 0, form factor 9, memory type 26. -/
def emptySlotBuf : List Byte := [1, 0, 2, 0, 64, 0, 64, 0, 0, 0, 9, 0, 0, 0, 26, 0, 0]

/-- A 17-byte buffer whose type-detail bytes hold the 16-bit value `t`, all other bytes 0. -/
def typeDetailBuf (t : Nat) : List Byte := List.replicate 15 0 ++ [toByte t, toByte (t / 256)]

/-- The `k` little-endian bytes of `v`, least significant first. -/
def leBytes : Nat → Nat → List Nat
  | 0, _ => []
  | k + 1, v => v % 256 :: leBytes k (v / 256)

/-- The 88 byte values a raw record stands for, field after field in offset order. -/
def rawBytes (r : MemoryRaw) : List Nat :=
  leBytes 2 r.MemArrayHandle ++ leBytes 2 r.MemErrorInfoHandle ++ leBytes 2 r.TotalWidth ++
  leBytes 2 r.DataWidth ++ leBytes 2 r.Size ++ leBytes 1 r.FormFactor ++
  leBytes 1 r.DeviceSet ++ leBytes 1 r.DeviceLocator ++ leBytes 1 r.BankLocator ++
  leBytes 1 r.MemType ++ leBytes 2 r.TypeDetail ++ leBytes 2 r.Speed ++
  leBytes 1 r.Manufacturer ++ leBytes 1 r.SerialNumber ++ leBytes 1 r.AssetTag ++
  leBytes 1 r.PartNumber ++ leBytes 1 r.Attribute ++ leBytes 4 r.ExtendedSize ++
  leBytes 2 r.ConfiguredMemClockSpeed ++ leBytes 2 r.MinVoltage ++ leBytes 2 r.MaxVoltage ++
  leBytes 2 r.ConfiguredVoltage ++ leBytes 1 r.MemoryTechnology ++
  leBytes 2 r.MemoryOperatingModeCapability ++ leBytes 1 r.FirmwareVersion ++
  leBytes 2 r.ModuleManufacturerID ++ leBytes 2 r.ModuleProductID ++
  leBytes 2 r.MemorySubsystemControllerManufacturerID ++
  leBytes 2 r.MemorySubsystemControllerProductID ++ leBytes 8 r.NonVolatileSize ++
  leBytes 8 r.VolatileSize ++ leBytes 8 r.CacheSize ++ leBytes 8 r.LogicalSize ++
  leBytes 4 r.ExtendedSpeed ++ leBytes 4 r.ExtendedConfiguredMemorySpeed

/-- Every raw field, in offset order. -/
def allRawFields : List RawField :=
  [ .MemArrayHandle, .MemErrorInfoHandle, .TotalWidth, .DataWidth, .Size, .FormFactor,
    .DeviceSet, .DeviceLocator, .BankLocator, .MemType, .TypeDetail, .Speed, .Manufacturer,
    .SerialNumber, .AssetTag, .PartNumber, .Attribute, .ExtendedSize,
    .ConfiguredMemClockSpeed, .MinVoltage, .MaxVoltage, .ConfiguredVoltage,
    .MemoryTechnology, .MemoryOperatingModeCapability, .FirmwareVersion,
    .ModuleManufacturerID, .ModuleProductID, .MemorySubsystemControllerManufacturerID,
    .MemorySubsystemControllerProductID, .NonVolatileSize, .VolatileSize, .CacheSize,
    .LogicalSize, .ExtendedSpeed, .ExtendedConfiguredMemorySpeed ]

/-! ## Basic facts about the run-time model -/

theorem rd_lt (fb : List Byte) (i : Nat) : rd fb i < 256 := (fb.getD i 0).isLt

theorem le16_lt (fb : List Byte) (i : Nat) : le16 fb i < 65536 := by
  have h0 := rd_lt fb i
  have h1 := rd_lt fb (i + 1)
  unfold le16; omega

theorem le32_lt (fb : List Byte) (i : Nat) : le32 fb i < 4294967296 := by
  have h0 := le16_lt fb i
  have h1 := le16_lt fb (i + 2)
  unfold le32; omega

theorem le64_lt (fb : List Byte) (i : Nat) : le64 fb i < 2 ^ 64 := by
  have h0 := le32_lt fb i
  have h1 := le32_lt fb (i + 4)
  unfold le64; omega

theorem index_ok {α : Type} (xs : List α) (i : Nat) (d : α) (h : i < xs.length) :
    index xs i = Except.ok (xs.getD i d) := by
  simp [index, List.getElem?_eq_getElem h]

theorem index_panic {α : Type} (xs : List α) (i : Nat) (h : xs.length ≤ i) :
    index xs i = Except.error Abort.panic := by
  simp [index, List.getElem?_eq_none h]

theorem index_byte (fb : List Byte) (i : Nat) (h : i < fb.length) :
    index fb i = Except.ok (fb.getD i 0) := index_ok fb i 0 h

theorem slice_ok (fb : List Byte) (lo hi : Nat) (h1 : lo ≤ hi) (h2 : hi ≤ fb.length) :
    slice fb lo hi = Except.ok (bytesOf fb lo hi) := by
  simp [slice, bytesOf, h1, h2]

theorem or_shl (a y k : Nat) (h : a < 2 ^ k) : a ||| (y <<< k) = a + 2 ^ k * y := by
  rw [Nat.shiftLeft_eq, Nat.mul_comm y, Nat.or_comm, ← Nat.mul_add_lt_is_or h, Nat.add_comm]

theorem bytesOf_cons (fb : List Byte) (lo hi : Nat) (h1 : lo < hi) (h2 : lo < fb.length) :
    bytesOf fb lo hi = fb.getD lo 0 :: bytesOf fb (lo + 1) hi := by
  unfold bytesOf
  rw [List.drop_eq_getElem_cons h2]
  obtain ⟨k, hk⟩ : ∃ k, hi - lo = k + 1 := ⟨hi - lo - 1, by omega⟩
  have hk2 : hi - (lo + 1) = k := by omega
  rw [hk, hk2, List.take_succ_cons, List.getD_eq_getElem _ _ h2]

theorem bytesOf_self (fb : List Byte) (lo : Nat) : bytesOf fb lo lo = [] := by
  simp [bytesOf]

theorem bytesOf_two (fb : List Byte) (lo hi : Nat) (h : hi = lo + 2) (h2 : hi ≤ fb.length) :
    bytesOf fb lo hi = [fb.getD lo 0, fb.getD (lo + 1) 0] := by
  subst h
  rw [bytesOf_cons fb lo _ (by omega) (by omega), bytesOf_cons fb (lo + 1) _ (by omega) (by omega),
    bytesOf_self]

theorem Uint16_pair (x y : Byte) : Uint16 [x, y] = Except.ok (x.val + 256 * y.val) := by
  have hx : x.val < 2 ^ 8 := x.isLt
  simp [Uint16, index, bind, Except.bind, pure, Except.pure, or_shl _ _ 8 hx]

theorem Uint16_bytesOf (fb : List Byte) (lo hi : Nat) (h : hi = lo + 2) (h2 : hi ≤ fb.length) :
    Uint16 (bytesOf fb lo hi) = Except.ok (le16 fb lo) := by
  rw [bytesOf_two fb lo hi h h2, Uint16_pair]; rfl

theorem bytesOf_four (fb : List Byte) (lo hi : Nat) (h : hi = lo + 4) (h2 : hi ≤ fb.length) :
    bytesOf fb lo hi = [fb.getD lo 0, fb.getD (lo + 1) 0, fb.getD (lo + 2) 0, fb.getD (lo + 3) 0] := by
  subst h
  rw [bytesOf_cons fb lo _ (by omega) (by omega), bytesOf_cons fb (lo + 1) _ (by omega) (by omega),
    bytesOf_two fb (lo + 1 + 1) _ (by omega) h2]

theorem bytesOf_eight (fb : List Byte) (lo hi : Nat) (h : hi = lo + 8) (h2 : hi ≤ fb.length) :
    bytesOf fb lo hi = [fb.getD lo 0, fb.getD (lo + 1) 0, fb.getD (lo + 2) 0, fb.getD (lo + 3) 0,
      fb.getD (lo + 4) 0, fb.getD (lo + 5) 0, fb.getD (lo + 6) 0, fb.getD (lo + 7) 0] := by
  subst h
  rw [bytesOf_cons fb lo _ (by omega) (by omega), bytesOf_cons fb (lo + 1) _ (by omega) (by omega),
    bytesOf_cons fb (lo + 1 + 1) _ (by omega) (by omega),
    bytesOf_cons fb (lo + 1 + 1 + 1) _ (by omega) (by omega),
    bytesOf_four fb (lo + 1 + 1 + 1 + 1) _ (by omega) h2]

theorem Uint32_quad (x y z w : Byte) :
    Uint32 [x, y, z, w] =
      Except.ok (x.val + 256 * y.val + 65536 * (z.val + 256 * w.val)) := by
  have hx : x.val < 2 ^ 8 := x.isLt
  have hy : x.val + 2 ^ 8 * y.val < 2 ^ 16 := by have := y.isLt; omega
  have hz : x.val + 2 ^ 8 * y.val + 2 ^ 16 * z.val < 2 ^ 24 := by have := z.isLt; omega
  simp only [Uint32, index, bind, Except.bind, pure, Except.pure, List.getElem?_cons_succ,
    List.getElem?_cons_zero, or_shl _ _ 8 hx, or_shl _ _ 16 hy, or_shl _ _ 24 hz]
  congr 1; omega

theorem Uint32_bytesOf (fb : List Byte) (lo hi : Nat) (h : hi = lo + 4) (h2 : hi ≤ fb.length) :
    Uint32 (bytesOf fb lo hi) = Except.ok (le32 fb lo) := by
  rw [bytesOf_four fb lo hi h h2, Uint32_quad]; rfl

theorem or_chain8 (a b c d e f g h : Nat) (ha : a < 256) (hb : b < 256) (hc : c < 256)
    (hd : d < 256) (he : e < 256) (hf : f < 256) (hg : g < 256) :
    (a ||| (b <<< 8) ||| (c <<< 16) ||| (d <<< 24) ||| (e <<< 32) ||| (f <<< 40) |||
      (g <<< 48) ||| (h <<< 56)) =
    a + 256 * b + 65536 * (c + 256 * d) +
        4294967296 * (e + 256 * f + 65536 * (g + 256 * h)) := by
  rw [or_shl a b 8 (by omega)]
  rw [or_shl _ c 16 (by omega)]
  rw [or_shl _ d 24 (by omega)]
  rw [or_shl _ e 32 (by omega)]
  rw [or_shl _ f 40 (by omega)]
  rw [or_shl _ g 48 (by omega)]
  rw [or_shl _ h 56 (by omega)]
  omega

theorem Uint64_oct (a b c d e f g h : Byte) :
    Uint64 [a, b, c, d, e, f, g, h] =
      Except.ok (a.val + 256 * b.val + 65536 * (c.val + 256 * d.val) +
        4294967296 * (e.val + 256 * f.val + 65536 * (g.val + 256 * h.val))) := by
  rw [← or_chain8 _ _ _ _ _ _ _ _ a.isLt b.isLt c.isLt d.isLt e.isLt f.isLt g.isLt]
  rfl

theorem Uint64_bytesOf (fb : List Byte) (lo hi : Nat) (h : hi = lo + 8) (h2 : hi ≤ fb.length) :
    Uint64 (bytesOf fb lo hi) = Except.ok (le64 fb lo) := by
  rw [bytesOf_eight fb lo hi h h2, Uint64_oct]; rfl

theorem ok_bind {α β : Type} (a : α) (f : α → Except Abort β) :
    (Except.ok a >>= f) = f a := rfl

theorem pure_ok {α : Type} (a : α) : (pure a : Except Abort α) = Except.ok a := rfl

/-! ## The extractor as a total function of the buffer -/

set_option maxHeartbeats 4000000 in
theorem getMemoryRaw_eq (fb : List Byte) (ss : List String) :
    getMemoryRaw fb ss = Except.ok (rawView fb) := by
  have hcases : fb.length < 17 ∨ (17 ≤ fb.length ∧ fb.length < 23) ∨
      (23 ≤ fb.length ∧ fb.length < 24) ∨ (24 ≤ fb.length ∧ fb.length < 30) ∨
      (30 ≤ fb.length ∧ fb.length < 36) ∨ (36 ≤ fb.length ∧ fb.length < 80) ∨
      (80 ≤ fb.length ∧ fb.length < 88) ∨ 88 ≤ fb.length := by omega
  rcases hcases with h | h | h | h | h | h | h | h
  all_goals
    unfold rawView gate
    simp (disch := omega) only [if_pos, if_neg]
    unfold getMemoryRaw
    lift_lets
    intro fbLen
    have hlen : fbLen = fb.length := rfl
    clear_value fbLen
    simp -zeta (disch := omega) only [sizeAsPer2_1, sizeAsPer2_3, sizeAsPer2_6, sizeAsPer2_7,
      sizeAsPer2_8, sizeAsPer3_2, sizeAsPer3_3, ge_iff_le, if_pos, if_neg,
      slice_ok, Uint16_bytesOf, Uint32_bytesOf, Uint64_bytesOf, index_byte, ok_bind, pure_ok]
    intros
    rfl

/-! ## The interpreter in closed form -/

theorem and_two_pow_ne_zero (x k : Nat) : ((x &&& 2 ^ k) != 0) = x.testBit k := by
  cases hx : x.testBit k
  · have : x &&& 2 ^ k = 0 := by
      apply Nat.eq_of_testBit_eq
      intro j
      rw [Nat.testBit_and, Nat.testBit_two_pow, Nat.zero_testBit]
      by_cases hkj : k = j
      · subst hkj; simp [hx]
      · simp [hkj]
    simp [this]
  · have : (x &&& 2 ^ k).testBit k = true := by
      rw [Nat.testBit_and, Nat.testBit_two_pow, hx]; simp
    have hne : x &&& 2 ^ k ≠ 0 := by
      intro h0; rw [h0, Nat.zero_testBit] at this; exact Bool.noConfusion this
    simp [hne]

theorem Test_BitFieldFromUint16 (t i : Nat) (hi : i < 16) :
    BitField.Test (BitFieldFromUint16 t) i = Except.ok (t.testBit i) := by
  have hoff : (1 <<< (i % 8)) % 256 = 2 ^ (i % 8) := by
    rw [Nat.one_shiftLeft]
    apply Nat.mod_eq_of_lt
    calc 2 ^ (i % 8) < 2 ^ 8 := Nat.pow_lt_pow_right (by decide) (Nat.mod_lt _ (by decide))
      _ = 256 := by decide
  have hidx : i / 8 = 0 ∨ i / 8 = 1 := by omega
  rcases hidx with h0 | h1
  · have hi8 : i % 8 = i := by omega
    simp only [BitField.Test, BitFieldFromUint16, h0, hoff, index, List.replicate, List.set,
      List.getElem?_cons_zero, bind, Except.bind, pure, Except.pure, toByte, and_two_pow_ne_zero]
    have : 256 = 2 ^ 8 := by decide
    rw [this, Nat.testBit_mod_two_pow, hi8]
    simp; omega
  · have hi8 : 8 + i % 8 = i := by omega
    simp only [BitField.Test, BitFieldFromUint16, h1, hoff, index, List.replicate, List.set,
      List.getElem?_cons_succ, List.getElem?_cons_zero, bind, Except.bind, pure, Except.pure,
      toByte, and_two_pow_ne_zero]
    have : 256 = 2 ^ 8 := by decide
    rw [this, Nat.testBit_mod_two_pow, Nat.testBit_shiftRight, hi8]
    simp; omega

theorem MemoryTypeDetail_String_ok (i : Nat) (hi : i < 16) :
    MemoryTypeDetail.String (Int.ofNat i) = Except.ok (detailLabel i) := by
  have h0 : (0 : Int) ≤ Int.ofNat i := Int.ofNat_nonneg i
  have hl : i < MemoryTypeDetail.labels.length := by simpa [MemoryTypeDetail.labels] using hi
  simp only [MemoryTypeDetail.String, if_pos h0, Int.toNat_ofNat, detailLabel]
  exact index_ok _ _ "" hl

theorem forIn_yield {σ : Type} (g : Nat → σ → σ) :
    ∀ (l : List Nat) (f : Nat → σ → Except Abort (ForInStep σ)) (s0 : σ),
      (∀ i ∈ l, ∀ s, f i s = Except.ok (ForInStep.yield (g i s))) →
      forIn l s0 f = Except.ok (l.foldl (fun s i => g i s) s0)
  | [], f, s0, _ => rfl
  | a :: l, f, s0, hf => by
    have ha := hf a (List.mem_cons_self a l) s0
    have ih := forIn_yield g l f (g a s0) (fun i hi s => hf i (List.mem_cons_of_mem a hi) s)
    simp only [List.forIn_cons, ha, List.foldl_cons]
    exact ih

theorem foldl_detail (t : Nat) :
    ∀ (l : List Nat) (m : Memory),
      l.foldl (fun s i => if t.testBit i then
          { s with TypeDetail := s.TypeDetail ++ [detailLabel i] } else s) m =
        { m with TypeDetail := m.TypeDetail ++ (l.filter (fun i => t.testBit i)).map detailLabel }
  | [], m => by simp
  | a :: l, m => by
    rw [List.foldl_cons, foldl_detail t l]
    cases h : t.testBit a <;> simp [List.filter_cons, h]

theorem typeDetail_loop (t : Nat) (m0 : Memory) :
    forIn (List.range 16) m0 (fun i r =>
      (BitFieldFromUint16 t).Test i >>= fun b =>
        if b = true then
          MemoryTypeDetail.String (Int.ofNat i) >>= fun s =>
            Except.ok (ForInStep.yield { r with TypeDetail := r.TypeDetail ++ [s] })
        else Except.ok (ForInStep.yield r)) =
      Except.ok { m0 with TypeDetail := m0.TypeDetail ++ detailLabels t } := by
  rw [forIn_yield (fun i s => if t.testBit i then
          { s with TypeDetail := s.TypeDetail ++ [detailLabel i] } else s)]
  · rw [foldl_detail]; rfl
  · intro i hi s
    have hi16 : i < 16 := List.mem_range.mp hi
    rw [Test_BitFieldFromUint16 t i hi16, ok_bind, MemoryTypeDetail_String_ok i hi16, ok_bind]
    cases t.testBit i <;> rfl

theorem ite_ok {α : Type} (c : Prop) [Decidable c] (a b : α) :
    (if c then (Except.ok a : Except Abort α) else Except.ok b) = Except.ok (if c then a else b) := by
  split <;> rfl

theorem locate_bind (ss : List String) (i : Nat) (f : String → Memory) (m : Memory)
    (hm : f "" = m) :
    (if i > 0 then index ss (subByte i 1) >>= fun s => Except.ok (f s) else Except.ok m) =
      locate ss i >>= fun s => Except.ok (f s) := by
  unfold locate
  split
  · rfl
  · rw [ok_bind, hm]

theorem guarded_index (ss : List String) (M : Nat) (f : String → Memory) (m : Memory) :
    (if M > 0 ∧ M ≤ ss.length % 256 then
        index ss (subByte M 1) >>= fun s => Except.ok (f s) else Except.ok m) =
      Except.ok (if M > 0 ∧ M ≤ ss.length % 256 then f (ss.getD (M - 1) "") else m) := by
  split
  · rename_i h
    have h1 : ss.length % 256 ≤ ss.length := Nat.mod_le _ _
    have h2 : ss.length % 256 < 256 := Nat.mod_lt _ (by decide)
    have hs : subByte M 1 = M - 1 := by unfold subByte; omega
    rw [hs, index_ok ss (M - 1) "" (by omega), ok_bind]
  · rfl

theorem Memory.ite_eta (c : Prop) [Decidable c] (a b : Memory) :
    (if c then a else b) =
      { TotalWidth := if c then a.TotalWidth else b.TotalWidth
        DataWidth := if c then a.DataWidth else b.DataWidth
        SizeKB := if c then a.SizeKB else b.SizeKB
        SizeMB := if c then a.SizeMB else b.SizeMB
        FormFactor := if c then a.FormFactor else b.FormFactor
        DeviceSet := if c then a.DeviceSet else b.DeviceSet
        DeviceLocator := if c then a.DeviceLocator else b.DeviceLocator
        BankLocator := if c then a.BankLocator else b.BankLocator
        MemType := if c then a.MemType else b.MemType
        TypeDetail := if c then a.TypeDetail else b.TypeDetail
        Speed := if c then a.Speed else b.Speed
        Manufacturer := if c then a.Manufacturer else b.Manufacturer
        SerialNumber := if c then a.SerialNumber else b.SerialNumber
        AssetTag := if c then a.AssetTag else b.AssetTag } := by
  split <;> rfl

theorem gate_lt (fb : List Byte) (t v b : Nat) (hv : v < b) : gate fb t v < b := by
  unfold gate; split <;> omega

theorem rawView_Size_lt (fb : List Byte) : (rawView fb).Size < 65536 :=
  gate_lt fb 17 _ _ (le16_lt fb 8)

theorem rawView_ExtendedSize_lt (fb : List Byte) : (rawView fb).ExtendedSize < 4294967296 :=
  gate_lt fb 30 _ _ (le32_lt fb 24)

theorem rawView_Speed_lt (fb : List Byte) : (rawView fb).Speed < 65536 :=
  gate_lt fb 23 _ _ (le16_lt fb 17)

theorem sizeValue_lt (fb : List Byte) : sizeValue fb < 4294967296 := by
  have h1 := rawView_Size_lt fb
  have h2 := rawView_ExtendedSize_lt fb
  unfold sizeValue; split <;> omega

theorem pos_ite_self (x : Nat) : (if x > 0 then x else 0) = x := by
  split <;> omega

theorem size_resolve (fb : List Byte) :
    (if (rawView fb).Size = 32767 ∧ sizeAsPer2_7 ≤ fb.length then
        (rawView fb).ExtendedSize % 2 ^ 64 else (rawView fb).Size % 2 ^ 64) = sizeValue fb := by
  have h1 := rawView_Size_lt fb
  have h2 := rawView_ExtendedSize_lt fb
  have e1 : (rawView fb).Size % 2 ^ 64 = (rawView fb).Size := Nat.mod_eq_of_lt (by omega)
  have e2 : (rawView fb).ExtendedSize % 2 ^ 64 = (rawView fb).ExtendedSize :=
    Nat.mod_eq_of_lt (by omega)
  rw [e1, e2]; rfl

theorem size_kb_wrap (fb : List Byte) : sizeValue fb * 1024 % 2 ^ 64 = sizeValue fb * 1024 := by
  have h := sizeValue_lt fb
  exact Nat.mod_eq_of_lt (by omega)

theorem speed_wrap (fb : List Byte) : (rawView fb).Speed % 2 ^ 32 = (rawView fb).Speed := by
  have h := rawView_Speed_lt fb
  exact Nat.mod_eq_of_lt (by omega)

theorem GetMemory_short (fb : List Byte) (ss : List String) (h : fb.length < 17) :
    GetMemory fb ss = Except.error
      (Abort.error ("formated byte array is too short, len: " ++ toString fb.length)) := by
  unfold GetMemory
  simp -zeta only [sizeAsPer2_1, if_pos h]
  rfl

theorem GetMemory_eq (fb : List Byte) (ss : List String) (h : 17 ≤ fb.length) :
    GetMemory fb ss =
      MemoryFormFactor.String (Int.ofNat (rawView fb).FormFactor) >>= fun ff =>
      locate ss (rawView fb).DeviceLocator >>= fun dl =>
      locate ss (rawView fb).BankLocator >>= fun bl =>
      MemoryType.String (Int.ofNat (rawView fb).MemType) >>= fun mt =>
      Except.ok (rawView fb, memView fb ss ff dl bl mt) := by
  unfold GetMemory
  simp (disch := first | omega | rfl) only [sizeAsPer2_1, if_neg, getMemoryRaw_eq, ok_bind,
    pure_ok, index_byte, Memory.ite_eta, ite_self, typeDetail_loop, locate_bind, guarded_index,
    bind_assoc, ge_iff_le, Nat.zero_le, if_true, ite_ok, List.nil_append, pos_ite_self,
    size_resolve, size_kb_wrap, speed_wrap]
  rfl

theorem MemoryFormFactor_String_eq (n : Nat) :
    MemoryFormFactor.String (Int.ofNat n) =
      if n < 17 then Except.ok (formFactorLabel n) else Except.error Abort.panic := by
  have h0 : (0 : Int) ≤ Int.ofNat n := Int.ofNat_nonneg n
  have hl : MemoryFormFactor.labels.length = 17 := rfl
  have ht : (Int.ofNat n).toNat = n := rfl
  simp only [MemoryFormFactor.String, if_pos h0, ht, formFactorLabel]
  split
  · exact index_ok _ _ "" (by omega)
  · exact index_panic _ _ (by omega)

theorem MemoryType_String_eq (n : Nat) :
    MemoryType.String (Int.ofNat n) =
      if n < 36 then Except.ok (memTypeLabel n) else Except.error Abort.panic := by
  have h0 : (0 : Int) ≤ Int.ofNat n := Int.ofNat_nonneg n
  have hl : MemoryType.labels.length = 36 := rfl
  have ht : (Int.ofNat n).toNat = n := rfl
  simp only [MemoryType.String, if_pos h0, ht, memTypeLabel]
  split
  · exact index_ok _ _ "" (by omega)
  · exact index_panic _ _ (by omega)

theorem locate_eq (ss : List String) (i : Nat) (hi : i < 256) :
    locate ss i =
      if i ≤ ss.length then Except.ok (locString ss i) else Except.error Abort.panic := by
  unfold locate locString
  by_cases h0 : i > 0
  · have hs : subByte i 1 = i - 1 := by unfold subByte; omega
    rw [if_pos h0, if_pos h0, hs]
    split
    · exact index_ok _ _ "" (by omega)
    · exact index_panic _ _ (by omega)
  · have : i = 0 := by omega
    subst this
    simp

theorem rawView_tier17 (fb : List Byte) (h : 17 ≤ fb.length) :
    (rawView fb).FormFactor = rd fb 10 ∧ (rawView fb).DeviceLocator = rd fb 12 ∧
      (rawView fb).BankLocator = rd fb 13 ∧ (rawView fb).MemType = rd fb 14 ∧
      (rawView fb).Size = le16 fb 8 ∧ (rawView fb).TypeDetail = le16 fb 15 := by
  simp [rawView, gate, h]

theorem error_bind {α β : Type} (e : Abort) (f : α → Except Abort β) :
    ((Except.error e : Except Abort α) >>= f) = Except.error e := rfl

/-- `GetMemory` on a buffer of at least 17 bytes: the decoded pair when every lookup is in
range, a panic otherwise. -/
theorem GetMemory_run (fb : List Byte) (ss : List String) (h : 17 ≤ fb.length) :
    GetMemory fb ss =
      if lookupsInRange fb ss then Except.ok (rawView fb, decoded fb ss)
      else Except.error Abort.panic := by
  obtain ⟨e1, e2, e3, e4, -, -⟩ := rawView_tier17 fb h
  rw [GetMemory_eq fb ss h, e1, e2, e3, e4, MemoryFormFactor_String_eq, MemoryType_String_eq,
    locate_eq ss _ (rd_lt fb 12), locate_eq ss _ (rd_lt fb 13)]
  unfold lookupsInRange decoded
  by_cases c1 : rd fb 10 < 17 <;> by_cases c2 : rd fb 12 ≤ ss.length <;>
    by_cases c3 : rd fb 13 ≤ ss.length <;> by_cases c4 : rd fb 14 < 36 <;>
    simp [c1, c2, c3, c4, ok_bind, error_bind]

theorem GetMemory_ok_iff (fb : List Byte) (ss : List String) (raw : MemoryRaw) (mem : Memory) :
    GetMemory fb ss = Except.ok (raw, mem) ↔
      17 ≤ fb.length ∧ lookupsInRange fb ss ∧ raw = rawView fb ∧ mem = decoded fb ss := by
  by_cases h : 17 ≤ fb.length
  · rw [GetMemory_run fb ss h]
    by_cases hv : lookupsInRange fb ss
    · rw [if_pos hv]
      constructor
      · intro heq
        injection heq with heq
        injection heq with h1 h2
        exact ⟨h, hv, h1.symm, h2.symm⟩
      · rintro ⟨-, -, h1, h2⟩
        rw [h1, h2]
    · rw [if_neg hv]
      constructor
      · intro heq; exact Except.noConfusion heq
      · rintro ⟨-, hv', -, -⟩; exact absurd hv' hv
  · rw [GetMemory_short fb ss (by omega)]
    constructor
    · intro heq; exact Except.noConfusion heq
    · rintro ⟨h', -⟩; exact absurd h' h

/-! ## The claims -/

theorem leValue_one (fb : List Byte) (lo hi : Nat) (h : hi = lo + 1) (h2 : hi ≤ fb.length) :
    leValue (bytesOf fb lo hi) = rd fb lo := by
  subst h
  rw [bytesOf_cons fb lo _ (by omega) (by omega), bytesOf_self]
  simp [leValue, rd]

theorem leValue_two (fb : List Byte) (lo hi : Nat) (h : hi = lo + 2) (h2 : hi ≤ fb.length) :
    leValue (bytesOf fb lo hi) = le16 fb lo := by
  rw [bytesOf_two fb lo hi h h2]
  simp [leValue, le16, rd]

theorem leValue_four (fb : List Byte) (lo hi : Nat) (h : hi = lo + 4) (h2 : hi ≤ fb.length) :
    leValue (bytesOf fb lo hi) = le32 fb lo := by
  rw [bytesOf_four fb lo hi h h2]
  simp only [leValue, le32, le16, rd, Nat.add_assoc, Nat.reduceAdd]
  omega

theorem leValue_eight (fb : List Byte) (lo hi : Nat) (h : hi = lo + 8) (h2 : hi ≤ fb.length) :
    leValue (bytesOf fb lo hi) = le64 fb lo := by
  rw [bytesOf_eight fb lo hi h h2]
  simp only [leValue, le64, le32, le16, rd, Nat.add_assoc, Nat.reduceAdd]
  omega

/-- C1: for a buffer of at least 17 bytes `getMemoryRaw` returns a record in which every
field of the offset table holds the little-endian value of its byte range when the buffer
reaches the tier threshold of the field, and 0 when it does not. -/
theorem C1_raw_fields_gated (fb : List Byte) (ss : List String) (h : 17 ≤ fb.length) :
    ∃ raw, getMemoryRaw fb ss = Except.ok raw ∧
      ∀ f : RawField, f.get raw =
        if f.tier ≤ fb.length then leValue (bytesOf fb f.lo f.hi) else 0 := by
  refine ⟨rawView fb, getMemoryRaw_eq fb ss, ?_⟩
  intro f
  cases f <;> simp only [RawField.get, RawField.tier, RawField.lo, RawField.hi, rawView, gate] <;>
    split <;>
    first
      | rfl
      | (rw [leValue_one _ _ _ rfl (by omega)])
      | (rw [leValue_two _ _ _ rfl (by omega)])
      | (rw [leValue_four _ _ _ rfl (by omega)])
      | (rw [leValue_eight _ _ _ rfl (by omega)])

theorem C1_raw_fields_gated_witness :
    17 ≤ exampleBuf24.length ∧
      ∃ raw, getMemoryRaw exampleBuf24 [] = Except.ok raw ∧
        ∀ f : RawField, f.get raw =
          if f.tier ≤ exampleBuf24.length then leValue (bytesOf exampleBuf24 f.lo f.hi)
          else 0 :=
  ⟨by decide, C1_raw_fields_gated exampleBuf24 [] (by decide)⟩

theorem and_128_eq_zero (x : Nat) : (x &&& 0x80 = 0) ↔ x.testBit 7 = false := by
  have h := and_two_pow_ne_zero x 7
  have e : (2 : Nat) ^ 7 = 0x80 := by decide
  rw [e] at h
  cases hb : x.testBit 7
  · rw [hb] at h
    simpa using h
  · rw [hb] at h
    simpa using h

theorem sizeValue_eq (fb : List Byte) (h : 17 ≤ fb.length) : sizeValue fb = resolvedSize fb := by
  unfold sizeValue resolvedSize rawView gate
  by_cases h30 : 30 ≤ fb.length <;> simp [h, h30]

theorem rawView_Speed (fb : List Byte) : (rawView fb).Speed = speedField fb := rfl

theorem rawView_ExtendedSpeed (fb : List Byte) (h : 88 ≤ fb.length) :
    (rawView fb).ExtendedSpeed = le32 fb 80 := by
  simp [rawView, gate, h]

theorem rawView_Manufacturer (fb : List Byte) : (rawView fb).Manufacturer = manufacturerIdx fb :=
  rfl

theorem rawView_SerialNumber (fb : List Byte) : (rawView fb).SerialNumber = serialIdx fb := rfl

/-- C2: a buffer shorter than 17 bytes makes `GetMemory` return a non-nil error whose
message depends on the length only; a buffer of 17 bytes or more either panics or
completes with a nil error; so an error is returned exactly when the buffer is shorter
than 17 bytes. -/
theorem C2_error_iff_short (fb : List Byte) (ss : List String) :
    (fb.length < 17 → GetMemory fb ss = Except.error
      (Abort.error ("formated byte array is too short, len: " ++ toString fb.length))) ∧
    (17 ≤ fb.length → GetMemory fb ss = Except.error Abort.panic ∨
      ∃ raw mem, GetMemory fb ss = Except.ok (raw, mem)) ∧
    ((∃ msg, GetMemory fb ss = Except.error (Abort.error msg)) ↔ fb.length < 17) := by
  refine ⟨GetMemory_short fb ss, ?_, ?_⟩
  · intro h
    rw [GetMemory_run fb ss h]
    by_cases hv : lookupsInRange fb ss
    · right; exact ⟨_, _, if_pos hv⟩
    · left; exact if_neg hv
  · constructor
    · rintro ⟨msg, hmsg⟩
      by_contra hlen
      rw [GetMemory_run fb ss (by omega)] at hmsg
      by_cases hv : lookupsInRange fb ss
      · rw [if_pos hv] at hmsg; exact Except.noConfusion hmsg
      · rw [if_neg hv] at hmsg
        injection hmsg with hmsg
        exact Abort.noConfusion hmsg
    · intro h
      exact ⟨_, GetMemory_short fb ss h⟩

theorem C2_error_iff_short_witness :
    GetMemory [] [] = Except.error
      (Abort.error ("formated byte array is too short, len: " ++
        toString ([] : List Byte).length)) :=
  (C2_error_iff_short [] []).1 (by decide)

/-- C3 (failing input): with device-locator index 1 and an empty string table the unguarded
lookup `ss[raw.DeviceLocator-1]` panics, while the guarded manufacturer and serial
lookups of the same function resolve out-of-range indices to the empty string. -/
theorem C3_locator_out_of_range_panics :
    GetMemory locatorBuf [] = Except.error Abort.panic ∧
      ∃ raw mem, GetMemory manufacturerBuf [] = Except.ok (raw, mem) ∧
        mem.Manufacturer = "" ∧ mem.SerialNumber = "" :=
  ⟨rfl, _, _, rfl, rfl, rfl⟩


theorem decoded_of_ok {fb : List Byte} {ss : List String} {raw : MemoryRaw} {mem : Memory}
    (h : GetMemory fb ss = Except.ok (raw, mem)) :
    17 ≤ fb.length ∧ lookupsInRange fb ss ∧ raw = rawView fb ∧ mem = decoded fb ss :=
  (GetMemory_ok_iff fb ss raw mem).mp h

/-- C4 (counterexample): a 24-byte buffer as the example describes it decodes, and its
`TypeDetail` is not the list the example states. -/
theorem C4_counterexample :
    exampleBuf24.length = 24 ∧ le16 exampleBuf24 8 = 0x0010 ∧ rd exampleBuf24 10 = 9 ∧
      rd exampleBuf24 14 = 26 ∧ le16 exampleBuf24 15 = 0x0080 ∧ rd exampleBuf24 12 = 1 ∧
      rd exampleBuf24 13 = 0 ∧ rd exampleBuf24 19 = 0 ∧ rd exampleBuf24 20 = 0 ∧
      rd exampleBuf24 21 = 0 ∧ rd exampleBuf24 22 = 0 ∧
      ¬ ∃ raw mem, GetMemory exampleBuf24 ["DIMM_A1"] = Except.ok (raw, mem) ∧
        mem.SizeMB = 16 ∧ mem.SizeKB = 16384 ∧ mem.FormFactor = "DIMM" ∧
        mem.MemType = "DDR4" ∧ mem.TypeDetail = ["Registered (Buffered)"] ∧
        mem.DeviceLocator = "DIMM_A1" := by
  refine ⟨rfl, rfl, rfl, rfl, rfl, rfl, rfl, rfl, rfl, rfl, rfl, ?_⟩
  rintro ⟨raw, mem, h, -, -, -, -, htd, -⟩
  obtain ⟨-, -, -, hm⟩ := decoded_of_ok h
  subst hm
  exact absurd htd (by decide)

/-- C4 (amended): every 24-byte buffer with size 0x0010, form factor 9, memory type 26,
type detail 0x0080, device-locator index 1 and bank-locator index 0 (whatever its other
bytes, so in particular with all other index bytes 0) decodes against the string table
`["DIMM_A1"]` to `SizeMB = 16`, `SizeKB = 16384`, `FormFactor = "DIMM"`,
`MemType = "DDR4"`, `TypeDetail = ["Synchronous"]` and `DeviceLocator = "DIMM_A1"`. -/
theorem C4_end_to_end (fb : List Byte) (h24 : fb.length = 24) (hsize : le16 fb 8 = 0x0010)
    (hff : rd fb 10 = 9) (hmt : rd fb 14 = 26) (htd : le16 fb 15 = 0x0080)
    (hdl : rd fb 12 = 1) (hbl : rd fb 13 = 0) :
    ∃ raw mem, GetMemory fb ["DIMM_A1"] = Except.ok (raw, mem) ∧
      mem.SizeMB = 16 ∧ mem.SizeKB = 16384 ∧ mem.FormFactor = "DIMM" ∧
      mem.MemType = "DDR4" ∧ mem.TypeDetail = ["Synchronous"] ∧
      mem.DeviceLocator = "DIMM_A1" := by
  have h17 : 17 ≤ fb.length := by omega
  have hv : lookupsInRange fb ["DIMM_A1"] := by
    unfold lookupsInRange; simp [hff, hdl, hbl, hmt]
  have h9 : rd fb 9 = 0 := by
    have h8 := rd_lt fb 8
    have e : le16 fb 8 = rd fb 8 + 256 * rd fb 9 := rfl
    omega
  have hV : sizeValue fb = 16 := by
    rw [sizeValue_eq fb h17]; unfold resolvedSize; rw [hsize]; simp
  obtain ⟨-, -, -, -, -, e6⟩ := rawView_tier17 fb h17
  refine ⟨rawView fb, decoded fb _, by rw [GetMemory_run fb _ h17, if_pos hv], ?_, ?_, ?_, ?_, ?_, ?_⟩
  · simp [decoded, memView, h9, hV]
  · simp [decoded, memView, h9, hV]
  · simp only [decoded, memView, hff]; rfl
  · simp only [decoded, memView, hmt]; rfl
  · simp only [decoded, memView, e6, htd]; rfl
  · simp only [decoded, memView, hdl]; rfl

theorem C4_end_to_end_witness :
    ∃ raw mem, GetMemory exampleBuf24 ["DIMM_A1"] = Except.ok (raw, mem) ∧
      mem.SizeMB = 16 ∧ mem.SizeKB = 16384 ∧ mem.FormFactor = "DIMM" ∧
      mem.MemType = "DDR4" ∧ mem.TypeDetail = ["Synchronous"] ∧
      mem.DeviceLocator = "DIMM_A1" :=
  C4_end_to_end exampleBuf24 rfl rfl rfl rfl rfl rfl rfl

theorem length_filter_testBit (t : Nat) (l : List Nat) :
    (l.filter (fun i => t.testBit i)).length = (l.map (fun i => t / 2 ^ i % 2)).sum := by
  induction l with
  | nil => rfl
  | cons a l ih =>
    have hmod : t / 2 ^ a % 2 = 0 ∨ t / 2 ^ a % 2 = 1 := by omega
    have hb := @Nat.testBit_to_div_mod a t
    rcases hmod with h0 | h1
    · have : t.testBit a = false := by rw [hb, h0]; rfl
      simp [List.filter_cons, this, ih, h0]
    · have : t.testBit a = true := by rw [hb, h1]; rfl
      simp [List.filter_cons, this, ih, h1]; omega

/-- C5: on a completed decode the `TypeDetail` sequence is the list, in ascending bit
position, of the labels `MemoryTypeDetail(i).String()` of exactly the positions `i` in
`0 .. 15` whose bit is set in the 16-bit type-detail value; its length is the population
count of that value, and it is empty when the value is 0. -/
theorem C5_type_detail_labels (fb : List Byte) (ss : List String) (raw : MemoryRaw)
    (mem : Memory) (h : GetMemory fb ss = Except.ok (raw, mem)) :
    raw.TypeDetail = le16 fb 15 ∧
      mem.TypeDetail.map Except.ok =
        ((List.range 16).filter (fun i => raw.TypeDetail.testBit i)).map
          (fun i => MemoryTypeDetail.String (Int.ofNat i)) ∧
      mem.TypeDetail.length = popCount16 raw.TypeDetail ∧
      (raw.TypeDetail = 0 → mem.TypeDetail = []) := by
  obtain ⟨h17, -, hr, hm⟩ := decoded_of_ok h
  subst hr hm
  obtain ⟨-, -, -, -, -, e6⟩ := rawView_tier17 fb h17
  have hmem : (decoded fb ss).TypeDetail = detailLabels (rawView fb).TypeDetail := rfl
  refine ⟨e6, ?_, ?_, ?_⟩
  · rw [hmem, detailLabels, List.map_map]
    apply List.map_congr_left
    intro i hi
    have hi16 : i < 16 := List.mem_range.mp (List.mem_filter.mp hi).1
    exact (MemoryTypeDetail_String_ok i hi16).symm
  · rw [hmem, detailLabels, List.length_map, length_filter_testBit]; rfl
  · intro h0
    rw [hmem, h0]; rfl

theorem C5_type_detail_labels_witness :
    GetMemory exampleBuf24 ["DIMM_A1"] =
        Except.ok (rawView exampleBuf24, decoded exampleBuf24 ["DIMM_A1"]) ∧
      (rawView exampleBuf24).TypeDetail = le16 exampleBuf24 15 ∧
      (decoded exampleBuf24 ["DIMM_A1"]).TypeDetail.map Except.ok =
        ((List.range 16).filter (fun i => (rawView exampleBuf24).TypeDetail.testBit i)).map
          (fun i => MemoryTypeDetail.String (Int.ofNat i)) ∧
      (decoded exampleBuf24 ["DIMM_A1"]).TypeDetail.length =
        popCount16 (rawView exampleBuf24).TypeDetail ∧
      ((rawView exampleBuf24).TypeDetail = 0 →
        (decoded exampleBuf24 ["DIMM_A1"]).TypeDetail = []) :=
  ⟨rfl, C5_type_detail_labels exampleBuf24 ["DIMM_A1"] _ _ rfl⟩


theorem size_bytes_of_sentinel (fb : List Byte) (hs : le16 fb 8 = 0x7FFF) :
    rd fb 9 = 0x7F := by
  have h8 := rd_lt fb 8
  have h9 := rd_lt fb 9
  have e : le16 fb 8 = rd fb 8 + 256 * rd fb 9 := rfl
  omega

theorem decoded_size (fb : List Byte) (ss : List String) (h : 17 ≤ fb.length) :
    (decoded fb ss).SizeKB =
        (if rd fb 9 &&& 0x80 = 0 then resolvedSize fb * 1024 else resolvedSize fb) ∧
      (decoded fb ss).SizeMB =
        (if rd fb 9 &&& 0x80 = 0 then resolvedSize fb else resolvedSize fb / 1024) := by
  rw [← sizeValue_eq fb h]
  exact ⟨rfl, rfl⟩

theorem resolvedSize_lt (fb : List Byte) : resolvedSize fb < 4294967296 := by
  have h1 := le16_lt fb 8
  have h2 := le32_lt fb 24
  unfold resolvedSize; split <;> omega

/-- C6: on a completed decode of a buffer whose 16-bit size field is 0x7FFF (so bit 7 of
byte 9 is clear), a buffer of at least 30 bytes has `SizeMB` equal to the 32-bit extended
size and `SizeKB` equal to 1024 times it, and a shorter buffer keeps `SizeMB = 32767`. -/
theorem C6_size_sentinel (fb : List Byte) (ss : List String) (raw : MemoryRaw) (mem : Memory)
    (h : GetMemory fb ss = Except.ok (raw, mem)) (hs : le16 fb 8 = 0x7FFF) :
    (rd fb 9).testBit 7 = false ∧
      (30 ≤ fb.length → mem.SizeMB = le32 fb 24 ∧ mem.SizeKB = le32 fb 24 * 1024) ∧
      (fb.length < 30 → 17 ≤ fb.length ∧ mem.SizeMB = 32767 ∧ mem.SizeKB = 32767 * 1024) := by
  obtain ⟨h17, -, -, hm⟩ := decoded_of_ok h
  subst hm
  have h9 := size_bytes_of_sentinel fb hs
  have hbit : rd fb 9 &&& 0x80 = 0 := by rw [h9]; decide
  obtain ⟨hkb, hmb⟩ := decoded_size fb ss h17
  rw [if_pos hbit] at hkb hmb
  refine ⟨(and_128_eq_zero _).mp hbit, ?_, ?_⟩
  · intro h30
    have hV : resolvedSize fb = le32 fb 24 := by
      unfold resolvedSize; rw [if_pos ⟨hs, h30⟩]
    rw [hkb, hmb, hV]; exact ⟨rfl, rfl⟩
  · intro h30
    have hV : resolvedSize fb = 32767 := by
      unfold resolvedSize; rw [if_neg (by omega), hs]
    rw [hkb, hmb, hV]; exact ⟨h17, rfl, rfl⟩

theorem C6_size_sentinel_witness :
    GetMemory sentinelBuf30 [] = Except.ok (rawView sentinelBuf30, decoded sentinelBuf30 []) ∧
      le16 sentinelBuf30 8 = 0x7FFF ∧ le32 sentinelBuf30 24 = 65536 ∧
      30 ≤ sentinelBuf30.length ∧
      (decoded sentinelBuf30 []).SizeMB = le32 sentinelBuf30 24 ∧
      (decoded sentinelBuf30 []).SizeKB = le32 sentinelBuf30 24 * 1024 :=
  ⟨rfl, rfl, rfl, by decide,
    (C6_size_sentinel sentinelBuf30 [] _ _ rfl rfl).2.1 (by decide)⟩

/-- C7: on a completed decode, with `V` the resolved size value (the 16-bit size, or the
extended size under the sentinel rule): if bit 7 of byte 9 is 0 then `SizeMB = V` and
`SizeKB = V * 1024`; if that bit is 1 then `SizeKB = V` and `SizeMB = V / 1024` rounded
down. -/
theorem C7_unit_granularity (fb : List Byte) (ss : List String) (raw : MemoryRaw)
    (mem : Memory) (h : GetMemory fb ss = Except.ok (raw, mem)) :
    ((rd fb 9).testBit 7 = false →
        mem.SizeMB = resolvedSize fb ∧ mem.SizeKB = resolvedSize fb * 1024) ∧
      ((rd fb 9).testBit 7 = true →
        mem.SizeKB = resolvedSize fb ∧ mem.SizeMB = resolvedSize fb / 1024) := by
  obtain ⟨h17, -, -, hm⟩ := decoded_of_ok h
  subst hm
  obtain ⟨hkb, hmb⟩ := decoded_size fb ss h17
  constructor
  · intro hb
    have hbit : rd fb 9 &&& 0x80 = 0 := (and_128_eq_zero _).mpr hb
    rw [if_pos hbit] at hkb hmb
    exact ⟨hmb, hkb⟩
  · intro hb
    have hbit : ¬ (rd fb 9 &&& 0x80 = 0) := by
      intro h0
      rw [(and_128_eq_zero _).mp h0] at hb
      exact Bool.noConfusion hb
    rw [if_neg hbit] at hkb hmb
    exact ⟨hkb, hmb⟩

theorem C7_unit_granularity_witness :
    GetMemory kilobyteBuf [] = Except.ok (rawView kilobyteBuf, decoded kilobyteBuf []) ∧
      (rd kilobyteBuf 9).testBit 7 = true ∧ resolvedSize kilobyteBuf = 0x8400 ∧
      (decoded kilobyteBuf []).SizeKB = resolvedSize kilobyteBuf ∧
      (decoded kilobyteBuf []).SizeMB = resolvedSize kilobyteBuf / 1024 :=
  ⟨rfl, by decide, by decide, (C7_unit_granularity kilobyteBuf [] _ _ rfl).2 (by decide)⟩

/-- C8: on a completed decode `SizeMB = SizeKB / 1024` rounded down; and when bit 7 of
byte 9 is clear, `SizeKB = SizeMB * 1024` over the natural numbers with `SizeMB < 2 ^ 32`
and `SizeKB < 2 ^ 42`: the 64-bit product never wraps. -/
theorem C8_size_consistency (fb : List Byte) (ss : List String) (raw : MemoryRaw)
    (mem : Memory) (h : GetMemory fb ss = Except.ok (raw, mem)) :
    mem.SizeMB = mem.SizeKB / 1024 ∧
      ((rd fb 9).testBit 7 = false →
        mem.SizeKB = mem.SizeMB * 1024 ∧ mem.SizeMB < 2 ^ 32 ∧ mem.SizeKB < 2 ^ 42) := by
  obtain ⟨h17, -, -, hm⟩ := decoded_of_ok h
  subst hm
  obtain ⟨hkb, hmb⟩ := decoded_size fb ss h17
  have hV := resolvedSize_lt fb
  by_cases hbit : rd fb 9 &&& 0x80 = 0
  · rw [if_pos hbit] at hkb hmb
    rw [hkb, hmb]
    refine ⟨by omega, fun _ => ⟨rfl, by omega, by omega⟩⟩
  · rw [if_neg hbit] at hkb hmb
    rw [hkb, hmb]
    refine ⟨rfl, fun hb => absurd ((and_128_eq_zero _).mpr hb) hbit⟩

theorem C8_size_consistency_witness :
    GetMemory exampleBuf24 ["DIMM_A1"] =
        Except.ok (rawView exampleBuf24, decoded exampleBuf24 ["DIMM_A1"]) ∧
      (rd exampleBuf24 9).testBit 7 = false ∧
      (decoded exampleBuf24 ["DIMM_A1"]).SizeKB =
        (decoded exampleBuf24 ["DIMM_A1"]).SizeMB * 1024 ∧
      (decoded exampleBuf24 ["DIMM_A1"]).SizeMB < 2 ^ 32 ∧
      (decoded exampleBuf24 ["DIMM_A1"]).SizeKB < 2 ^ 42 :=
  ⟨rfl, by decide, (C8_size_consistency exampleBuf24 ["DIMM_A1"] _ _ rfl).2 (by decide)⟩


theorem decoded_Speed (fb : List Byte) (ss : List String) :
    (decoded fb ss).Speed =
      if (speedField fb = 0x7FFF ∨ speedField fb = 0xFFFF) ∧ 88 ≤ fb.length then le32 fb 80
      else speedField fb := by
  have e : (decoded fb ss).Speed =
      if ((rawView fb).Speed = 0x7FFF ∨ (rawView fb).Speed = 0xFFFF) ∧ 88 ≤ fb.length then
        (rawView fb).ExtendedSpeed else (rawView fb).Speed := rfl
  rw [e, rawView_Speed]
  by_cases h88 : 88 ≤ fb.length
  · rw [rawView_ExtendedSpeed fb h88]
  · rw [if_neg (fun hc => h88 hc.2), if_neg (fun hc => h88 hc.2)]

/-- C9: on a completed decode `Speed` is the 32-bit extended speed when the 16-bit speed
field is 0x7FFF or 0xFFFF and the buffer has at least 88 bytes, and otherwise the 16-bit
speed field itself; so speed 0xFFFF decodes to the extended speed from 88 bytes on and to
65535 at 87 bytes, and a buffer shorter than 23 bytes decodes to speed 0. -/
theorem C9_speed_resolution (fb : List Byte) (ss : List String) (raw : MemoryRaw)
    (mem : Memory) (h : GetMemory fb ss = Except.ok (raw, mem)) :
    mem.Speed =
        (if (speedField fb = 0x7FFF ∨ speedField fb = 0xFFFF) ∧ 88 ≤ fb.length then le32 fb 80
          else speedField fb) ∧
      (le16 fb 17 = 0xFFFF → 88 ≤ fb.length → mem.Speed = le32 fb 80) ∧
      (le16 fb 17 = 0xFFFF → fb.length = 87 → mem.Speed = 65535) ∧
      (fb.length < 23 → mem.Speed = 0) ∧ mem.Speed < 2 ^ 32 := by
  obtain ⟨h17, -, -, hm⟩ := decoded_of_ok h
  subst hm
  have hsp := decoded_Speed fb ss
  have hlt := le32_lt fb 80
  have hlt2 := le16_lt fb 17
  refine ⟨hsp, ?_, ?_, ?_, ?_⟩
  · intro hf h88
    have e : speedField fb = 0xFFFF := by unfold speedField; rw [if_pos (by omega), hf]
    rw [hsp, if_pos ⟨Or.inr e, h88⟩]
  · intro hf h87
    have e : speedField fb = 0xFFFF := by unfold speedField; rw [if_pos (by omega), hf]
    rw [hsp, if_neg (by omega), e]
  · intro h23
    have e : speedField fb = 0 := by unfold speedField; rw [if_neg (by omega)]
    rw [hsp, e]; simp
  · rw [hsp]
    have : speedField fb < 65536 := by unfold speedField; split <;> omega
    split <;> omega

theorem C9_speed_resolution_witness :
    GetMemory speedBuf88 [] = Except.ok (rawView speedBuf88, decoded speedBuf88 []) ∧
      le16 speedBuf88 17 = 0xFFFF ∧ le32 speedBuf88 80 = 100000 ∧ 88 ≤ speedBuf88.length ∧
      (decoded speedBuf88 []).Speed = le32 speedBuf88 80 :=
  ⟨rfl, rfl, rfl, by decide,
    (C9_speed_resolution speedBuf88 [] _ _ rfl).2.1 rfl (by decide)⟩

theorem decoded_Manufacturer (fb : List Byte) (ss : List String) :
    (decoded fb ss).Manufacturer =
      if manufacturerIdx fb > 0 ∧ manufacturerIdx fb ≤ ss.length % 256 then
        ss.getD (manufacturerIdx fb - 1) "" else "" := rfl

theorem decoded_SerialNumber (fb : List Byte) (ss : List String) :
    (decoded fb ss).SerialNumber =
      if serialIdx fb > 0 ∧ serialIdx fb ≤ ss.length % 256 then
        ss.getD (serialIdx fb - 1) "" else "" := rfl

theorem guard_false_of_missing (ss : List String) (m : Nat)
    (h : m = 0 ∨ ss.length < m) (hm : m < 256) : ¬ (m > 0 ∧ m ≤ ss.length % 256) := by
  have h1 : ss.length % 256 ≤ ss.length := Nat.mod_le _ _
  omega

/-- C10: for every buffer and every string table of any length, a completed decode has an
empty `Manufacturer` when the manufacturer index is 0 or exceeds the table length, and
likewise an empty `SerialNumber`; and these two lookups never fault: a buffer of at least
17 bytes whose form-factor, memory-type and locator bytes are in range decodes whatever
its manufacturer and serial indices are. -/
theorem C10_missing_strings (fb : List Byte) (ss : List String) :
    (∀ raw mem, GetMemory fb ss = Except.ok (raw, mem) →
        ((manufacturerIdx fb = 0 ∨ ss.length < manufacturerIdx fb) → mem.Manufacturer = "") ∧
        ((serialIdx fb = 0 ∨ ss.length < serialIdx fb) → mem.SerialNumber = "")) ∧
      (17 ≤ fb.length → lookupsInRange fb ss →
        ∃ raw mem, GetMemory fb ss = Except.ok (raw, mem)) := by
  constructor
  · intro raw mem h
    obtain ⟨-, -, -, hm⟩ := decoded_of_ok h
    subst hm
    have hM : manufacturerIdx fb < 256 := by
      have := rd_lt fb 19
      unfold manufacturerIdx; split <;> omega
    have hS : serialIdx fb < 256 := by
      have := rd_lt fb 20
      unfold serialIdx; split <;> omega
    constructor
    · intro hmiss
      rw [decoded_Manufacturer, if_neg (guard_false_of_missing ss _ hmiss hM)]
    · intro hmiss
      rw [decoded_SerialNumber, if_neg (guard_false_of_missing ss _ hmiss hS)]
  · intro h17 hv
    exact ⟨_, _, by rw [GetMemory_run fb ss h17, if_pos hv]⟩

theorem C10_missing_strings_witness :
    GetMemory manufacturerBuf [] =
        Except.ok (rawView manufacturerBuf, decoded manufacturerBuf []) ∧
      manufacturerIdx manufacturerBuf = 1 ∧ serialIdx manufacturerBuf = 2 ∧
      (decoded manufacturerBuf []).Manufacturer = "" ∧
      (decoded manufacturerBuf []).SerialNumber = "" :=
  ⟨rfl, rfl, rfl,
    ((C10_missing_strings manufacturerBuf []).1 _ _ rfl).1 (Or.inr (by decide)),
    ((C10_missing_strings manufacturerBuf []).1 _ _ rfl).2 (Or.inr (by decide))⟩

theorem table256_length : table256.length = 256 := List.length_replicate _ _

theorem table256_run :
    GetMemory manufacturerBuf table256 =
      Except.ok (rawView manufacturerBuf, decoded manufacturerBuf table256) := by
  rw [GetMemory_run manufacturerBuf table256 (by decide), if_pos]
  unfold lookupsInRange
  rw [table256_length]
  decide

theorem table256_fields :
    (decoded manufacturerBuf table256).Manufacturer = "" ∧
      (decoded manufacturerBuf table256).SerialNumber = "" := by
  rw [decoded_Manufacturer, decoded_SerialNumber, table256_length]
  exact ⟨rfl, rfl⟩

theorem table256_entries : table256.getD 0 "" = "X" ∧ table256.getD 1 "" = "X" := ⟨rfl, rfl⟩

/-- C11: on a completed decode of a buffer of at least 23 bytes with a string table of fewer
than 256 entries, an in-range manufacturer (serial) index `m` resolves to `ss[m-1]`; with a
table of 256 entries `byte(len(ss))` is 0, the guard `raw.Manufacturer <= arrSize` fails for
the in-range indices 1 and 2, and both fields stay empty although the entries are `"X"`. -/
theorem C11_truncated_table_length :
    (∀ (fb : List Byte) (ss : List String) (raw : MemoryRaw) (mem : Memory),
        GetMemory fb ss = Except.ok (raw, mem) → 23 ≤ fb.length → ss.length < 256 →
        (0 < rd fb 19 → rd fb 19 ≤ ss.length →
          mem.Manufacturer = ss.getD (rd fb 19 - 1) "") ∧
        (0 < rd fb 20 → rd fb 20 ≤ ss.length →
          mem.SerialNumber = ss.getD (rd fb 20 - 1) "")) ∧
      (23 ≤ manufacturerBuf.length ∧ rd manufacturerBuf 19 = 1 ∧ rd manufacturerBuf 20 = 2 ∧
        table256.length = 256 ∧ table256.getD 0 "" = "X" ∧ table256.getD 1 "" = "X" ∧
        ∃ raw mem, GetMemory manufacturerBuf table256 = Except.ok (raw, mem) ∧
          mem.Manufacturer = "" ∧ mem.SerialNumber = "") := by
  constructor
  · intro fb ss raw mem h h23 hss
    obtain ⟨-, -, -, hm⟩ := decoded_of_ok h
    subst hm
    have hmod : ss.length % 256 = ss.length := Nat.mod_eq_of_lt hss
    have em : manufacturerIdx fb = rd fb 19 := if_pos h23
    have es : serialIdx fb = rd fb 20 := if_pos h23
    constructor
    · intro h0 hle
      rw [decoded_Manufacturer, em, hmod, if_pos ⟨h0, hle⟩]
    · intro h0 hle
      rw [decoded_SerialNumber, es, hmod, if_pos ⟨h0, hle⟩]
  · exact ⟨by decide, rfl, rfl, table256_length, table256_entries.1, table256_entries.2,
      _, _, table256_run, table256_fields.1, table256_fields.2⟩

theorem C11_truncated_table_length_witness :
    GetMemory manufacturerBuf ["A", "B"] =
        Except.ok (rawView manufacturerBuf, decoded manufacturerBuf ["A", "B"]) ∧
      (decoded manufacturerBuf ["A", "B"]).Manufacturer = "A" ∧
      (decoded manufacturerBuf ["A", "B"]).SerialNumber = "B" :=
  ⟨rfl,
    (C11_truncated_table_length.1 manufacturerBuf ["A", "B"] _ _ rfl (by decide)
      (by decide)).1 (by decide) (by decide),
    (C11_truncated_table_length.1 manufacturerBuf ["A", "B"] _ _ rfl (by decide)
      (by decide)).2 (by decide) (by decide)⟩

theorem String_defined_iff (labels : List String) (f : Int → Except Abort String)
    (hf : ∀ v, f v = if 0 ≤ v then index labels v.toNat else Except.error Abort.panic)
    (v : Int) :
    ((∃ s, f v = Except.ok s) ↔ (0 ≤ v ∧ v < labels.length)) ∧
      (¬ (0 ≤ v ∧ v < labels.length) → f v = Except.error Abort.panic) := by
  rw [hf v]
  by_cases h0 : 0 ≤ v
  · rw [if_pos h0]
    by_cases hl : v.toNat < labels.length
    · have hv : v < labels.length := by omega
      rw [index_ok labels _ "" hl]
      exact ⟨⟨fun _ => ⟨h0, hv⟩, fun _ => ⟨_, rfl⟩⟩, fun hn => absurd ⟨h0, hv⟩ hn⟩
    · have hv : ¬ v < labels.length := by omega
      rw [index_panic labels _ (by omega)]
      refine ⟨⟨?_, fun hc => absurd hc.2 hv⟩, fun _ => rfl⟩
      rintro ⟨s, hs⟩; exact Except.noConfusion hs
  · rw [if_neg h0]
    refine ⟨⟨?_, fun hc => absurd hc.1 h0⟩, fun _ => rfl⟩
    rintro ⟨s, hs⟩; exact Except.noConfusion hs

/-- C12 (counterexample): the memory-type table has 36 entries, `MemoryType(35).String()`
is defined, and a buffer whose memory-type byte is 35 decodes instead of faulting; so the
label function is not defined exactly on `0 <= v < 35`. -/
theorem C12_counterexample :
    MemoryType.labels.length ≠ 35 ∧ MemoryType.String 35 = Except.ok "LPDDR5" ∧
      (∃ raw mem, GetMemory memType35Buf [] = Except.ok (raw, mem) ∧ mem.MemType = "LPDDR5") ∧
      ¬ (∀ v : Int, (∃ s, MemoryType.String v = Except.ok s) ↔ (0 ≤ v ∧ v < 35)) := by
  refine ⟨by decide, rfl, ⟨_, _, rfl, rfl⟩, ?_⟩
  intro hall
  have h35 := (hall 35).mp ⟨"LPDDR5", rfl⟩
  omega

/-- C12 (amended): the form-factor table has exactly 17 entries and the memory-type table
exactly 36; `MemoryFormFactor(v).String()` is defined exactly for `0 <= v < 17` and
`MemoryType(v).String()` exactly for `0 <= v < 36`; outside these ranges the call panics,
and a decode of a buffer of at least 17 bytes whose form-factor byte is 17 or more, or
whose memory-type byte is 36 or more, panics. -/
theorem C12_label_tables :
    MemoryFormFactor.labels.length = 17 ∧ MemoryType.labels.length = 36 ∧
      (∀ v : Int, ((∃ s, MemoryFormFactor.String v = Except.ok s) ↔ (0 ≤ v ∧ v < 17)) ∧
        (¬ (0 ≤ v ∧ v < 17) → MemoryFormFactor.String v = Except.error Abort.panic)) ∧
      (∀ v : Int, ((∃ s, MemoryType.String v = Except.ok s) ↔ (0 ≤ v ∧ v < 36)) ∧
        (¬ (0 ≤ v ∧ v < 36) → MemoryType.String v = Except.error Abort.panic)) ∧
      (∀ (fb : List Byte) (ss : List String), 17 ≤ fb.length →
        (17 ≤ rd fb 10 ∨ 36 ≤ rd fb 14) → GetMemory fb ss = Except.error Abort.panic) := by
  refine ⟨rfl, rfl, ?_, ?_, ?_⟩
  · intro v
    exact String_defined_iff MemoryFormFactor.labels MemoryFormFactor.String (fun _ => rfl) v
  · intro v
    exact String_defined_iff MemoryType.labels MemoryType.String (fun _ => rfl) v
  · intro fb ss h17 hbad
    rw [GetMemory_run fb ss h17, if_neg]
    unfold lookupsInRange
    omega

theorem C12_label_tables_witness :
    17 ≤ formFactor17Buf.length ∧ 17 ≤ rd formFactor17Buf 10 ∧
      GetMemory formFactor17Buf [] = Except.error Abort.panic :=
  ⟨by decide, by decide,
    C12_label_tables.2.2.2.2 formFactor17Buf [] (by decide) (Or.inl (by decide))⟩

theorem leBytes_one (fb : List Byte) (i : Nat) : leBytes 1 (rd fb i) = [rd fb i] := by
  have h := rd_lt fb i
  simp only [leBytes]
  congr 1; omega

theorem leBytes_two (fb : List Byte) (i : Nat) :
    leBytes 2 (le16 fb i) = [rd fb i, rd fb (i + 1)] := by
  have h0 := rd_lt fb i
  have h1 := rd_lt fb (i + 1)
  simp only [leBytes, le16]
  congr 1
  · omega
  · congr 1; omega

theorem leBytes_four (fb : List Byte) (i : Nat) :
    leBytes 4 (le32 fb i) = leBytes 2 (le16 fb i) ++ leBytes 2 (le16 fb (i + 2)) := by
  have h0 := le16_lt fb i
  have h1 := le16_lt fb (i + 2)
  simp only [leBytes, le32, List.cons_append, List.nil_append]
  congr 1
  · omega
  · congr 1
    · omega
    · congr 1
      · omega
      · congr 1; omega

theorem leBytes_split4 (a b : Nat) (ha : a < 4294967296) :
    leBytes 8 (a + 4294967296 * b) = leBytes 4 a ++ leBytes 4 b := by
  simp only [leBytes, List.cons_append, List.nil_append]
  congr 1
  · omega
  · congr 1
    · omega
    · congr 1
      · omega
      · congr 1
        · omega
        · congr 1
          · omega
          · congr 1
            · omega
            · congr 1
              · omega
              · congr 1; omega

theorem leBytes_eight (fb : List Byte) (i : Nat) :
    leBytes 8 (le64 fb i) = leBytes 4 (le32 fb i) ++ leBytes 4 (le32 fb (i + 4)) :=
  leBytes_split4 _ _ (le32_lt fb i)

theorem rawBytes_rawView (fb : List Byte) (h : 88 ≤ fb.length) :
    rawBytes (rawView fb) = (List.range 88).map (rd fb) := by
  unfold rawBytes rawView gate
  simp (disch := omega) only [if_pos, leBytes_eight, leBytes_four, leBytes_two, leBytes_one,
    List.cons_append, List.nil_append, List.append_assoc, Nat.add_assoc, Nat.reduceAdd]
  rfl

theorem take_map_val (fb : List Byte) (h : 88 ≤ fb.length) :
    (fb.take 88).map Fin.val = (List.range 88).map (rd fb) := by
  apply List.ext_getElem
  · simp; omega
  · intro i h1 h2
    have hi : i < 88 := by simpa using h2
    have hl : i < fb.length := by omega
    simp [rd, List.getElem?_eq_getElem hl]


theorem rd_take (fb : List Byte) (i : Nat) (hi : i < 88) : rd (fb.take 88) i = rd fb i := by
  simp only [rd, List.getD_eq_getElem?_getD, List.getElem?_take, if_pos hi]

theorem rawView_congr (fb1 fb2 : List Byte) (h1 : 88 ≤ fb1.length) (h2 : 88 ≤ fb2.length)
    (hrd : ∀ i, i < 88 → rd fb1 i = rd fb2 i) : rawView fb1 = rawView fb2 := by
  unfold rawView gate le64 le32 le16
  simp (disch := omega) only [if_pos, hrd]

/-- C13: for two buffers of at least 88 bytes the raw records are equal exactly when the first
88 bytes are equal; the record stands for exactly these 88 bytes (writing every field back in
little-endian order at its offsets gives the prefix); and every offset below 88 lies in the
range of exactly one of the 35 fields. -/
theorem C13_prefix_determines_raw (fb1 fb2 : List Byte) (ss1 ss2 : List String)
    (h1 : 88 ≤ fb1.length) (h2 : 88 ≤ fb2.length) :
    (getMemoryRaw fb1 ss1 = getMemoryRaw fb2 ss2 ↔ fb1.take 88 = fb2.take 88) ∧
      (∃ raw, getMemoryRaw fb1 ss1 = Except.ok raw ∧
        rawBytes raw = (fb1.take 88).map Fin.val) ∧
      (∀ f : RawField, f ∈ allRawFields) ∧
      (∀ i, i < 88 →
        (allRawFields.filter (fun f => decide (f.lo ≤ i ∧ i < f.hi))).length = 1) := by
  refine ⟨?_, ?_, ?_, ?_⟩
  · rw [getMemoryRaw_eq, getMemoryRaw_eq]
    constructor
    · intro h
      have hv : rawView fb1 = rawView fb2 := Except.ok.inj h
      have hb : (fb1.take 88).map Fin.val = (fb2.take 88).map Fin.val := by
        rw [take_map_val fb1 h1, take_map_val fb2 h2, ← rawBytes_rawView fb1 h1,
          ← rawBytes_rawView fb2 h2, hv]
      exact List.map_injective_iff.mpr Fin.val_injective hb
    · intro h
      have hrd : ∀ i, i < 88 → rd fb1 i = rd fb2 i := by
        intro i hi
        rw [← rd_take fb1 i hi, ← rd_take fb2 i hi, h]
      rw [rawView_congr fb1 fb2 h1 h2 hrd]
  · exact ⟨rawView fb1, getMemoryRaw_eq fb1 ss1,
      by rw [rawBytes_rawView fb1 h1, take_map_val fb1 h1]⟩
  · intro f
    cases f <;> decide
  · decide

theorem C13_prefix_determines_raw_witness :
    88 ≤ speedBuf88.length ∧ 88 ≤ (speedBuf88 ++ [7]).length ∧
      getMemoryRaw speedBuf88 [] = getMemoryRaw (speedBuf88 ++ [7]) ["x"] :=
  ⟨by decide, by decide,
    (C13_prefix_determines_raw speedBuf88 (speedBuf88 ++ [7]) [] ["x"] (by decide)
      (by decide)).1.mpr (by decide)⟩

theorem rawView_short (fb : List Byte) (h : fb.length < 17) : rawView fb = {} := by
  unfold rawView gate
  simp (disch := omega) only [if_neg]

/-- C14: `getMemoryRaw` never faults: for every buffer, of any length (also shorter than 17
bytes or empty), it returns a record; every read of the model that is out of range faults,
so every offset it reads is below `len(fb)`; and a buffer shorter than 17 bytes gives the
all-zero record. -/
theorem C14_extractor_total (fb : List Byte) (ss : List String) :
    (∃ raw, getMemoryRaw fb ss = Except.ok raw) ∧
      getMemoryRaw fb ss ≠ Except.error Abort.panic ∧
      (∀ i, (∃ b, index fb i = Except.ok b) ↔ i < fb.length) ∧
      (∀ i, ¬ i < fb.length → index fb i = Except.error Abort.panic) ∧
      (∀ lo hi, (∃ s, slice fb lo hi = Except.ok s) ↔ (lo ≤ hi ∧ hi ≤ fb.length)) ∧
      (∀ lo hi, ¬ (lo ≤ hi ∧ hi ≤ fb.length) → slice fb lo hi = Except.error Abort.panic) ∧
      (fb.length < 17 → getMemoryRaw fb ss = Except.ok {}) := by
  have hidx : ∀ i, ¬ i < fb.length → index fb i = Except.error Abort.panic :=
    fun i hi => index_panic fb i (by omega)
  have hsl : ∀ lo hi, ¬ (lo ≤ hi ∧ hi ≤ fb.length) →
      slice fb lo hi = Except.error Abort.panic := by
    intro lo hi h
    unfold slice
    rw [if_neg h]
  refine ⟨⟨_, getMemoryRaw_eq fb ss⟩, ?_, ?_, hidx, ?_, hsl, ?_⟩
  · rw [getMemoryRaw_eq]
    intro h
    exact Except.noConfusion h
  · intro i
    constructor
    · rintro ⟨b, hb⟩
      by_contra hi
      rw [hidx i hi] at hb
      exact Except.noConfusion hb
    · intro hi
      exact ⟨_, index_ok fb i 0 hi⟩
  · intro lo hi
    constructor
    · rintro ⟨s, hs⟩
      by_contra hc
      rw [hsl lo hi hc] at hs
      exact Except.noConfusion hs
    · intro hc
      exact ⟨_, slice_ok fb lo hi hc.1 hc.2⟩
  · intro h
    rw [getMemoryRaw_eq, rawView_short fb h]

theorem C14_extractor_total_witness :
    ([] : List Byte).length < 17 ∧ getMemoryRaw [] [] = Except.ok {} :=
  ⟨by decide, (C14_extractor_total [] []).2.2.2.2.2.2 (by decide)⟩

/-- C15: a buffer of at least 17 bytes whose size bytes 8 and 9 are 0 and whose form-factor,
memory-type and locator bytes are in range decodes without error to `SizeKB = 0` and
`SizeMB = 0`. -/
theorem C15_empty_slot (fb : List Byte) (ss : List String) (h17 : 17 ≤ fb.length)
    (h8 : rd fb 8 = 0) (h9 : rd fb 9 = 0) (hv : lookupsInRange fb ss) :
    ∃ raw mem, GetMemory fb ss = Except.ok (raw, mem) ∧ raw.Size = 0 ∧
      mem.SizeKB = 0 ∧ mem.SizeMB = 0 := by
  have hsz : le16 fb 8 = 0 := by
    have e : le16 fb 8 = rd fb 8 + 256 * rd fb 9 := rfl
    omega
  have hV : resolvedSize fb = 0 := by unfold resolvedSize; rw [hsz]; simp
  obtain ⟨hkb, hmb⟩ := decoded_size fb ss h17
  obtain ⟨-, -, -, -, e5, -⟩ := rawView_tier17 fb h17
  refine ⟨rawView fb, decoded fb ss, by rw [GetMemory_run fb ss h17, if_pos hv], ?_, ?_, ?_⟩
  · rw [e5, hsz]
  · rw [hkb, hV, h9]; rfl
  · rw [hmb, hV, h9]; rfl

theorem C15_empty_slot_witness :
    ∃ raw mem, GetMemory emptySlotBuf [] = Except.ok (raw, mem) ∧ raw.Size = 0 ∧
      mem.SizeKB = 0 ∧ mem.SizeMB = 0 :=
  C15_empty_slot emptySlotBuf [] (by decide) rfl rfl (by decide)

theorem detailLabel_inj : ∀ i, i < 16 → ∀ j, j < 16 → detailLabel i = detailLabel j → i = j := by
  decide

theorem map_inj_on {α β : Type} (f : α → β) :
    ∀ (l1 l2 : List α), (∀ x ∈ l1, ∀ y ∈ l2, f x = f y → x = y) →
      l1.map f = l2.map f → l1 = l2
  | [], [], _, _ => rfl
  | [], _ :: _, _, h => by simp at h
  | _ :: _, [], _, h => by simp at h
  | a :: l1, b :: l2, hinj, h => by
    simp only [List.map_cons, List.cons.injEq] at h
    have hab : a = b := hinj a (List.mem_cons_self _ _) b (List.mem_cons_self _ _) h.1
    have ht : l1 = l2 :=
      map_inj_on f l1 l2
        (fun x hx y hy => hinj x (List.mem_cons_of_mem _ hx) y (List.mem_cons_of_mem _ hy)) h.2
    rw [hab, ht]

theorem detailLabels_nodup (t : Nat) : (detailLabels t).Nodup := by
  unfold detailLabels
  apply List.Nodup.map_on
  · intro x hx y hy hxy
    have hx16 : x < 16 := List.mem_range.mp (List.mem_filter.mp hx).1
    have hy16 : y < 16 := List.mem_range.mp (List.mem_filter.mp hy).1
    exact detailLabel_inj x hx16 y hy16 hxy
  · exact (List.nodup_range 16).filter _

theorem detailLabels_inj (t1 t2 : Nat) (h1 : t1 < 65536) (h2 : t2 < 65536)
    (h : detailLabels t1 = detailLabels t2) : t1 = t2 := by
  unfold detailLabels at h
  have hl := map_inj_on detailLabel _ _ (by
    intro x hx y hy hxy
    have hx16 : x < 16 := List.mem_range.mp (List.mem_filter.mp hx).1
    have hy16 : y < 16 := List.mem_range.mp (List.mem_filter.mp hy).1
    exact detailLabel_inj x hx16 y hy16 hxy) h
  apply Nat.eq_of_testBit_eq
  intro i
  by_cases hi : i < 16
  · have hm : i ∈ (List.range 16).filter (fun i => t1.testBit i) ↔
        i ∈ (List.range 16).filter (fun i => t2.testBit i) := by rw [hl]
    simp only [List.mem_filter, List.mem_range, hi, true_and] at hm
    exact Bool.eq_iff_iff.mpr hm
  · have hp : 65536 ≤ 2 ^ i :=
      calc 65536 = 2 ^ 16 := by decide
        _ ≤ 2 ^ i := Nat.pow_le_pow_right (by decide) (by omega)
    rw [Nat.testBit_lt_two_pow (by omega), Nat.testBit_lt_two_pow (by omega)]

theorem typeDetailBuf_run (t : Nat) (ht : t < 65536) :
    GetMemory (typeDetailBuf t) [] =
        Except.ok (rawView (typeDetailBuf t), decoded (typeDetailBuf t) []) ∧
      (rawView (typeDetailBuf t)).TypeDetail = t := by
  have h17 : 17 ≤ (typeDetailBuf t).length := by
    unfold typeDetailBuf; simp
  constructor
  · rw [GetMemory_run _ _ h17, if_pos]
    have r10 : rd (typeDetailBuf t) 10 = 0 := rfl
    have r12 : rd (typeDetailBuf t) 12 = 0 := rfl
    have r13 : rd (typeDetailBuf t) 13 = 0 := rfl
    have r14 : rd (typeDetailBuf t) 14 = 0 := rfl
    unfold lookupsInRange
    rw [r10, r12, r13, r14]
    decide
  · obtain ⟨-, -, -, -, -, e⟩ := rawView_tier17 _ h17
    rw [e]
    have e1 : le16 (typeDetailBuf t) 15 = t % 256 + 256 * (t / 256 % 256) := rfl
    omega

/-- C16: the 16 type-detail labels are pairwise distinct; so on completed decodes the label
list has no repeated entry, and two decodes with the same label list have the same raw
type-detail value (different values always give different label lists); every 16-bit value
is the raw type-detail value of a completed decode. -/
theorem C16_type_detail_injective (fb1 fb2 : List Byte) (ss1 ss2 : List String)
    (raw1 raw2 : MemoryRaw) (mem1 mem2 : Memory)
    (h1 : GetMemory fb1 ss1 = Except.ok (raw1, mem1))
    (h2 : GetMemory fb2 ss2 = Except.ok (raw2, mem2)) :
    MemoryTypeDetail.labels.length = 16 ∧ MemoryTypeDetail.labels.Nodup ∧
      mem1.TypeDetail.Nodup ∧
      (mem1.TypeDetail = mem2.TypeDetail → raw1.TypeDetail = raw2.TypeDetail) ∧
      (raw1.TypeDetail ≠ raw2.TypeDetail → mem1.TypeDetail ≠ mem2.TypeDetail) ∧
      (∀ t, t < 65536 → ∃ raw mem, GetMemory (typeDetailBuf t) [] = Except.ok (raw, mem) ∧
        raw.TypeDetail = t ∧ mem.TypeDetail.Nodup) := by
  obtain ⟨k1, -, hr1, hm1⟩ := decoded_of_ok h1
  obtain ⟨k2, -, hr2, hm2⟩ := decoded_of_ok h2
  subst hr1 hm1 hr2 hm2
  obtain ⟨-, -, -, -, -, e1⟩ := rawView_tier17 fb1 k1
  obtain ⟨-, -, -, -, -, e2⟩ := rawView_tier17 fb2 k2
  have d1 : (decoded fb1 ss1).TypeDetail = detailLabels (rawView fb1).TypeDetail := rfl
  have d2 : (decoded fb2 ss2).TypeDetail = detailLabels (rawView fb2).TypeDetail := rfl
  have hinj : (decoded fb1 ss1).TypeDetail = (decoded fb2 ss2).TypeDetail →
      (rawView fb1).TypeDetail = (rawView fb2).TypeDetail := by
    intro h
    rw [d1, d2] at h
    exact detailLabels_inj _ _ (by rw [e1]; exact le16_lt fb1 15)
      (by rw [e2]; exact le16_lt fb2 15) h
  refine ⟨rfl, by decide, ?_, hinj, fun hne h => hne (hinj h), ?_⟩
  · rw [d1]
    exact detailLabels_nodup _
  · intro t ht
    refine ⟨_, _, (typeDetailBuf_run t ht).1, (typeDetailBuf_run t ht).2, ?_⟩
    have d : (decoded (typeDetailBuf t) []).TypeDetail =
        detailLabels (rawView (typeDetailBuf t)).TypeDetail := rfl
    rw [d]
    exact detailLabels_nodup _

theorem C16_type_detail_injective_witness :
    GetMemory exampleBuf24 ["DIMM_A1"] =
        Except.ok (rawView exampleBuf24, decoded exampleBuf24 ["DIMM_A1"]) ∧
      GetMemory kilobyteBuf [] = Except.ok (rawView kilobyteBuf, decoded kilobyteBuf []) ∧
      (rawView exampleBuf24).TypeDetail ≠ (rawView kilobyteBuf).TypeDetail ∧
      (decoded exampleBuf24 ["DIMM_A1"]).TypeDetail ≠ (decoded kilobyteBuf []).TypeDetail :=
  ⟨rfl, rfl, by decide,
    (C16_type_detail_injective exampleBuf24 kilobyteBuf ["DIMM_A1"] [] _ _ _ _ rfl rfl).2.2.2.2.1
      (by decide)⟩

theorem testBit_iff_shift_and (x k : Nat) : x.testBit k = decide ((x >>> k) &&& 1 = 1) := by
  rw [Nat.testBit_to_div_mod, Nat.and_one_is_mod, Nat.shiftRight_eq_div_pow]

theorem Test_general (b : BitField) (i : Nat) (hi : i < 8 * b.length) :
    BitField.Test b i = Except.ok ((b.getD (i / 8) 0).val.testBit (i % 8)) := by
  have hoff : (1 <<< (i % 8)) % 256 = 2 ^ (i % 8) := by
    rw [Nat.one_shiftLeft]
    apply Nat.mod_eq_of_lt
    calc 2 ^ (i % 8) < 2 ^ 8 := Nat.pow_lt_pow_right (by decide) (Nat.mod_lt _ (by decide))
      _ = 256 := by decide
  have hidx : i / 8 < b.length := by omega
  simp only [BitField.Test, index_byte b (i / 8) hidx, ok_bind, pure_ok, hoff,
    and_two_pow_ne_zero]

/-- C17: for every `n` and every `i < 16`, `BitFieldFromUint16(n).Test(i)` returns whether
bit `i` of `n` is set, `(n >> i) & 1 = 1`; and for every bit field `b` and `i < 8 * len(b)`,
`b.Test(i)` returns bit `i mod 8` of the byte `b[i / 8]`. -/
theorem C17_bit_test :
    (∀ n i : Nat, i < 16 →
      BitField.Test (BitFieldFromUint16 n) i = Except.ok (decide ((n >>> i) &&& 1 = 1))) ∧
    (∀ (b : BitField) (i : Nat), i < 8 * b.length →
      BitField.Test b i =
        Except.ok (decide (((b.getD (i / 8) 0).val >>> (i % 8)) &&& 1 = 1))) := by
  constructor
  · intro n i hi
    rw [Test_BitFieldFromUint16 n i hi, testBit_iff_shift_and]
  · intro b i hi
    rw [Test_general b i hi, testBit_iff_shift_and]

theorem C17_bit_test_witness :
    BitField.Test (BitFieldFromUint16 0x2080) 13 =
        Except.ok (decide ((0x2080 >>> 13) &&& 1 = 1)) ∧
      BitField.Test [0x80, 0x20] 7 =
        Except.ok (decide ((((([0x80, 0x20] : BitField).getD (7 / 8) 0).val >>> (7 % 8))) &&& 1 = 1)) :=
  ⟨C17_bit_test.1 0x2080 13 (by decide), C17_bit_test.2 [0x80, 0x20] 7 (by decide)⟩

/-- C18 (failing input): `BitFieldFromUint16` allocates 2 bytes, not 4, for every `n`, so
`Test(16)` indexes `b[2]` and panics. -/
theorem C18_two_bytes_only (n : Nat) :
    (BitFieldFromUint16 n).length = 2 ∧
      BitField.Test (BitFieldFromUint16 n) 16 = Except.error Abort.panic ∧
      BitField.Test (BitFieldFromUint16 n) 31 = Except.error Abort.panic :=
  ⟨rfl, rfl, rfl⟩

/-- C19: for a buffer of at least 17 bytes `GetMemory` completes (and returns nil) if and
only if byte 10 is below 17, byte 14 is below 36 and bytes 12 and 13 do not exceed the
length of the string table; otherwise it panics. -/
theorem C19_fault_characterisation (fb : List Byte) (ss : List String) (h17 : 17 ≤ fb.length) :
    ((∃ raw mem, GetMemory fb ss = Except.ok (raw, mem)) ↔
        (rd fb 10 < 17 ∧ rd fb 14 < 36 ∧ rd fb 12 ≤ ss.length ∧ rd fb 13 ≤ ss.length)) ∧
      (GetMemory fb ss = Except.error Abort.panic ↔
        ¬ (rd fb 10 < 17 ∧ rd fb 14 < 36 ∧ rd fb 12 ≤ ss.length ∧ rd fb 13 ≤ ss.length)) := by
  have hiff : lookupsInRange fb ss ↔
      (rd fb 10 < 17 ∧ rd fb 14 < 36 ∧ rd fb 12 ≤ ss.length ∧ rd fb 13 ≤ ss.length) := by
    unfold lookupsInRange; tauto
  rw [← hiff, GetMemory_run fb ss h17]
  by_cases hv : lookupsInRange fb ss
  · rw [if_pos hv]
    refine ⟨⟨fun _ => hv, fun _ => ⟨_, _, rfl⟩⟩, ⟨fun h => ?_, fun h => absurd hv h⟩⟩
    exact Except.noConfusion h
  · rw [if_neg hv]
    refine ⟨⟨?_, fun h => absurd h hv⟩, ⟨fun _ => hv, fun _ => rfl⟩⟩
    rintro ⟨raw, mem, h⟩
    exact Except.noConfusion h

theorem C19_fault_characterisation_witness :
    17 ≤ locatorBuf.length ∧ rd locatorBuf 12 = 1 ∧
      GetMemory locatorBuf [] = Except.error Abort.panic :=
  ⟨by decide, rfl,
    (C19_fault_characterisation locatorBuf [] (by decide)).2.mpr (by decide)⟩

/-- C20: on a completed decode with bit 7 of byte 9 set, `SizeKB` is the whole 16-bit size
field with bit 15 left in, so `32768 <= SizeKB <= 65535` and `32 <= SizeMB <= 63`; and on
every completed decode `SizeKB` is 0 or at least 1024. -/
theorem C20_flag_bit_kept (fb : List Byte) (ss : List String) (raw : MemoryRaw) (mem : Memory)
    (h : GetMemory fb ss = Except.ok (raw, mem)) :
    ((rd fb 9).testBit 7 = true →
        mem.SizeKB = le16 fb 8 ∧ raw.Size = le16 fb 8 ∧ 32768 ≤ mem.SizeKB ∧
        mem.SizeKB ≤ 65535 ∧ 32 ≤ mem.SizeMB ∧ mem.SizeMB ≤ 63) ∧
      (mem.SizeKB = 0 ∨ 1024 ≤ mem.SizeKB) := by
  obtain ⟨h17, -, hr, hm⟩ := decoded_of_ok h
  subst hr hm
  obtain ⟨hkb, hmb⟩ := decoded_size fb ss h17
  obtain ⟨-, -, -, -, e5, -⟩ := rawView_tier17 fb h17
  have h8 := rd_lt fb 8
  have h9 := rd_lt fb 9
  have e : le16 fb 8 = rd fb 8 + 256 * rd fb 9 := rfl
  have hkey : (rd fb 9).testBit 7 = true →
      (decoded fb ss).SizeKB = le16 fb 8 ∧ (decoded fb ss).SizeMB = le16 fb 8 / 1024 ∧
        128 ≤ rd fb 9 := by
    intro hb
    have hbit : ¬ (rd fb 9 &&& 0x80 = 0) := by
      intro h0
      rw [(and_128_eq_zero _).mp h0] at hb
      exact Bool.noConfusion hb
    have h128 : 128 ≤ rd fb 9 := by
      by_contra hlt
      have : rd fb 9 < 2 ^ 7 := by omega
      rw [Nat.testBit_lt_two_pow this] at hb
      exact Bool.noConfusion hb
    have hV : resolvedSize fb = le16 fb 8 := by
      unfold resolvedSize; rw [if_neg (by omega)]
    rw [if_neg hbit] at hkb hmb
    rw [hkb, hmb, hV]
    exact ⟨rfl, rfl, h128⟩
  constructor
  · intro hb
    obtain ⟨k1, k2, k3⟩ := hkey hb
    rw [k1, k2, e5]
    refine ⟨rfl, rfl, ?_, ?_, ?_, ?_⟩ <;> omega
  · by_cases hb : (rd fb 9).testBit 7 = true
    · obtain ⟨k1, -, k3⟩ := hkey hb
      right; rw [k1]; omega
    · have hbit : rd fb 9 &&& 0x80 = 0 := (and_128_eq_zero _).mpr (by simpa using hb)
      rw [if_pos hbit] at hkb
      rw [hkb]; omega

theorem C20_flag_bit_kept_witness :
    GetMemory kilobyteBuf [] = Except.ok (rawView kilobyteBuf, decoded kilobyteBuf []) ∧
      le16 kilobyteBuf 8 = 0x8400 ∧ (decoded kilobyteBuf []).SizeKB = 33792 ∧
      (decoded kilobyteBuf []).SizeKB = le16 kilobyteBuf 8 :=
  ⟨rfl, rfl, rfl, ((C20_flag_bit_kept kilobyteBuf [] _ _ rfl).1 (by decide)).1⟩

end hwinfo
